import Mathlib

/-!
Verification development for the data-alchemist ingestion/validation pipeline.

The definitions below are a shallow embedding of the TypeScript sources:
  * `lib/dataUtils.ts`  — normalizers (`parseClientData`, `parseWorkerData`,
    `parseTaskData`), validators (`validateClientData`, `validateWorkerData`,
    `validateTaskData`, `validateCrossReferences`);
  * `lib/aiValidationService.ts` — `applyFix`, `getValidPriorityLevel`,
    `getDefaultSkills`, `getDefaultRequiredSkills`;
  * `components/ValidationPanel.tsx` — `autoFixError` (the fallback path, with
    no AI suggestions present);
  * `components/ExportSection.tsx` — the export gate of `exportData`.

JavaScript numbers are modelled as `Int` (all claims quantify over integer
values; `Math.round` is the identity there).  JavaScript `Map`/object key
iteration order is modelled by insertion-ordered association lists.  Thrown
exceptions that the source catches are modelled by `Option` with the catch
branch supplying the default.
-/

namespace DataAlchemist

inductive Severity
  | error
  | warning
  | info
deriving DecidableEq, Repr

inductive EntityKind
  | client
  | worker
  | task
deriving DecidableEq, Repr

/-- The `ValidationError` record of `types/data.ts`. -/
structure ValidationError where
  id : String
  type : Severity
  entity : EntityKind
  entityId : String
  field : String
  message : String
  suggestion : String
  autoFixAvailable : Bool
deriving DecidableEq, Repr

/-- Raw `Client` row (`types/data.ts`): all list-like fields still strings. -/
structure Client where
  ClientID : String
  ClientName : String
  PriorityLevel : Int
  RequestedTaskIDs : String
  GroupTag : String
  AttributesJSON : String
deriving DecidableEq, Repr

/-- Raw `Worker` row (`types/data.ts`). -/
structure Worker where
  WorkerID : String
  WorkerName : String
  Skills : String
  AvailableSlots : String
  MaxLoadPerPhase : Int
  WorkerGroup : String
  QualificationLevel : String
deriving DecidableEq, Repr

/-- Raw `Task` row (`types/data.ts`). -/
structure Task where
  TaskID : String
  TaskName : String
  Category : String
  Duration : Int
  RequiredSkills : String
  PreferredPhases : String
  MaxConcurrent : Int
deriving DecidableEq, Repr

/-- `ParsedClient` (`types/data.ts`): `RequestedTaskIDs` split into a list,
`AttributesJSON` parsed into a flat key/value map. -/
structure ParsedClient where
  ClientID : String
  ClientName : String
  PriorityLevel : Int
  RequestedTaskIDs : List String
  GroupTag : String
  AttributesJSON : List (String × String)
deriving DecidableEq, Repr

/-- `ParsedWorker` (`types/data.ts`). -/
structure ParsedWorker where
  WorkerID : String
  WorkerName : String
  Skills : List String
  AvailableSlots : List Int
  MaxLoadPerPhase : Int
  WorkerGroup : String
  QualificationLevel : String
deriving DecidableEq, Repr

/-- `ParsedTask` (`types/data.ts`). -/
structure ParsedTask where
  TaskID : String
  TaskName : String
  Category : String
  Duration : Int
  RequiredSkills : List String
  PreferredPhases : List Int
  MaxConcurrent : Int
deriving DecidableEq, Repr

/-- `DataState` (`types/data.ts`). -/
structure DataState where
  clients : List ParsedClient
  workers : List ParsedWorker
  tasks : List ParsedTask
  isLoading : Bool
  errors : List ValidationError
deriving DecidableEq, Repr

/-! ### JavaScript string/number helpers

The library `String` functions (`splitOn`, `trim`, …) are implemented with
iterators and do not reduce inside the kernel, so the string manipulation is
carried out on `List Char` with structural recursion; `String.toList` and
`String.mk` bridge to the record fields.  Each helper is documented with the
JavaScript expression it models. -/

/-- JavaScript `String.prototype.split` with a single-character separator:
`"".split(sep)` is `[""]`, separators at the ends produce empty tokens. -/
def splitOnCharList (sep : Char) : List Char → List (List Char)
  | [] => [[]]
  | c :: rest =>
      let r := splitOnCharList sep rest
      if c = sep then [] :: r
      else
        match r with
        | h :: t => (c :: h) :: t
        | [] => [[c]]

/-- JavaScript `String.prototype.trim`: whitespace stripped from both ends. -/
def trimList (cs : List Char) : List Char :=
  ((cs.dropWhile Char.isWhitespace).reverse.dropWhile Char.isWhitespace).reverse

/-- `trim` packaged back into a `String`. -/
def jsTrim (s : String) : String :=
  String.mk (trimList s.toList)

/-- `split` packaged back into `String`s. -/
def jsSplit (sep : Char) (s : String) : List String :=
  (splitOnCharList sep s.toList).map String.mk

/-- Value of a list of decimal digit characters. -/
def digitsToNat (cs : List Char) : Nat :=
  cs.foldl (fun a c => a * 10 + (c.toNat - 48)) 0

/-- JavaScript `parseInt` (radix 10) on a cell token: trim, optional sign,
then the longest leading digit run; `none` models `NaN`.  (Fractional input
such as `"1.5"` truncates at the dot, exactly as `parseInt` does.) -/
def jsParseIntL (cs : List Char) : Option Int :=
  match trimList cs with
  | '-' :: rest =>
      let ds := rest.takeWhile Char.isDigit
      if ds.isEmpty then none else some (-(digitsToNat ds : Int))
  | '+' :: rest =>
      let ds := rest.takeWhile Char.isDigit
      if ds.isEmpty then none else some ((digitsToNat ds : Int))
  | other =>
      let ds := other.takeWhile Char.isDigit
      if ds.isEmpty then none else some ((digitsToNat ds : Int))

/-- `parseInt` on a `String`. -/
def jsParseInt (s : String) : Option Int :=
  jsParseIntL s.toList

/-- Run an `Option`-valued function over a list, failing if any element fails
(the effect of `JSON.parse` rejecting a malformed element). -/
def optionMapAll (f : α → Option β) : List α → Option (List β)
  | [] => some []
  | a :: rest =>
      match f a, optionMapAll f rest with
      | some b, some bs => some (b :: bs)
      | _, _ => none

/-- One strict JSON integer token: optional minus sign then digits only. -/
def parseJsonIntToken (cs : List Char) : Option Int :=
  match trimList cs with
  | '-' :: rest =>
      if rest ≠ [] ∧ rest.all Char.isDigit then some (-(digitsToNat rest : Int)) else none
  | other =>
      if other ≠ [] ∧ other.all Char.isDigit then some ((digitsToNat other : Int)) else none

/-- `JSON.parse` restricted to flat arrays of integers — the only JSON shape
the app's numeric-list cells use.  Any other text is `none`, which the
callers' `catch` turns into the empty list.  (JSON text of other shapes,
e.g. a bare scalar, would reach the data untyped in the source and be flagged
by the `Array.isArray` validation downstream; no claim exercises that.) -/
def jsonParseIntArray (s : String) : Option (List Int) :=
  match trimList s.toList with
  | '[' :: rest =>
      if rest.getLast? = some ']' then
        let inner := rest.dropLast
        if trimList inner = [] then some []
        else optionMapAll parseJsonIntToken (splitOnCharList ',' inner)
      else none
  | _ => none

/-- The opening brace character. -/
def braceL : Char := Char.ofNat 123

/-- The closing brace character. -/
def braceR : Char := Char.ofNat 125

/-- One strict JSON string token: a double-quoted run with no quote or
backslash inside. -/
def parseJsonStringToken (cs : List Char) : Option String :=
  match trimList cs with
  | '"' :: rest =>
      if rest.getLast? = some '"' then
        let inner := rest.dropLast
        if inner.contains '"' ∨ inner.contains '\\' then none else some (String.mk inner)
      else none
  | _ => none

/-- `JSON.parse` restricted to flat objects with plain string keys and values
(no escapes, commas, colons, or nesting inside the strings).  Any other text
is `none`; the caller's `catch` turns that into the empty attribute map.  The
parsed content is only stored, never consumed, so this restriction loses no
behaviour the claims mention. -/
def jsonParseObj (s : String) : Option (List (String × String)) :=
  match trimList s.toList with
  | c :: rest =>
      if c = braceL ∧ rest.getLast? = some braceR then
        let inner := rest.dropLast
        if trimList inner = [] then some []
        else optionMapAll
          (fun pair =>
            match splitOnCharList ':' pair with
            | [k, v] =>
                match parseJsonStringToken k, parseJsonStringToken v with
                | some k2, some v2 => some (k2, v2)
                | _, _ => none
            | _ => none)
          (splitOnCharList ',' inner)
      else none
  | _ => none

/-! ### Normalizers (`lib/dataUtils.ts`) -/

/-- The comma-list expression the normalizers inline three times:
`s ? s.split(',').map(x => x.trim()) : []`  (empty string is falsy). -/
def jsCommaSplitTrim (s : String) : List String :=
  if s = "" then [] else (jsSplit ',' s).map jsTrim

/-- Per-row body of `parseClientData`. -/
def parseClient (c : Client) : ParsedClient :=
  { ClientID := c.ClientID
    ClientName := c.ClientName
    PriorityLevel := c.PriorityLevel
    RequestedTaskIDs := jsCommaSplitTrim c.RequestedTaskIDs
    GroupTag := c.GroupTag
    AttributesJSON := (jsonParseObj c.AttributesJSON).getD [] }

/-- `parseClientData` from `lib/dataUtils.ts`. -/
def parseClientData (rawData : List Client) : List ParsedClient :=
  rawData.map parseClient

/-- `JSON.parse` applied to the `AvailableSlots` cell; parse failure is
caught and becomes `[]`. -/
def parseAvailableSlots (s : String) : List Int :=
  (jsonParseIntArray s).getD []

/-- Per-row body of `parseWorkerData`. -/
def parseWorker (w : Worker) : ParsedWorker :=
  { WorkerID := w.WorkerID
    WorkerName := w.WorkerName
    Skills := jsCommaSplitTrim w.Skills
    AvailableSlots := parseAvailableSlots w.AvailableSlots
    MaxLoadPerPhase := w.MaxLoadPerPhase
    WorkerGroup := w.WorkerGroup
    QualificationLevel := w.QualificationLevel }

/-- `parseWorkerData` from `lib/dataUtils.ts`. -/
def parseWorkerData (rawData : List Worker) : List ParsedWorker :=
  rawData.map parseWorker

/-- `Array.from({length: b - a + 1}, (_, i) => a + i)`: inclusive range,
empty when the length is not positive. -/
def rangeFromTo (a b : Int) : List Int :=
  if b < a then [] else (List.range (b - a + 1).toNat).map (fun i => a + (i : Int))

/-- The `PreferredPhases` cell grammar of `parseTaskData`: a string containing
`'-'` takes the range path (first two `'-'`-separated tokens through
`parseInt`; a `NaN` bound gives length `NaN`, hence `[]`); otherwise a string
starting with `'['` goes through `JSON.parse` (failure caught to `[]`);
otherwise comma-separated `parseInt` tokens with `NaN`s filtered out. -/
def parsePreferredPhases (s : String) : List Int :=
  if s.toList.contains '-' then
    match splitOnCharList '-' s.toList with
    | a :: b :: _ =>
        match jsParseIntL a, jsParseIntL b with
        | some start, some stop => rangeFromTo start stop
        | _, _ => []
    | _ => []
  else if s.toList.head? == some '[' then (jsonParseIntArray s).getD []
  else (splitOnCharList ',' s.toList).filterMap jsParseIntL

/-- Per-row body of `parseTaskData`. -/
def parseTask (t : Task) : ParsedTask :=
  { TaskID := t.TaskID
    TaskName := t.TaskName
    Category := t.Category
    Duration := t.Duration
    RequiredSkills := jsCommaSplitTrim t.RequiredSkills
    PreferredPhases := parsePreferredPhases t.PreferredPhases
    MaxConcurrent := t.MaxConcurrent }

/-- `parseTaskData` from `lib/dataUtils.ts`. -/
def parseTaskData (rawData : List Task) : List ParsedTask :=
  rawData.map parseTask

/-! ### Validators (`lib/dataUtils.ts`)

Each validator iterates over its collection with `forEach((row, index) => …)`
carrying a mutable `Set` of already-seen IDs; this is modelled by structural
recursion passing the index and the seen list explicitly.  Set membership is
the only operation the source performs, so a plain list models the `Set`.
Every pushed error literal is transcribed into a named builder. -/

/-- `client.ClientID || `client-${index}``  (the empty string is falsy). -/
def safeClientId (c : ParsedClient) (index : Nat) : String :=
  if c.ClientID = "" then s!"client-{index}" else c.ClientID

/-- The duplicate-ID error pushed by `validateClientData`. -/
def mkClientDuplicateError (c : ParsedClient) (index : Nat) : ValidationError :=
  let safeId := safeClientId c index
  let cid := c.ClientID
  { id := s!"client-duplicate-{safeId}-{index}"
    type := Severity.error
    entity := EntityKind.client
    entityId := safeId
    field := "ClientID"
    message := s!"Duplicate Client ID: {cid}"
    suggestion := "Ensure each client has a unique ID"
    autoFixAvailable := false }

/-- The priority-range error pushed by `validateClientData`. -/
def mkClientPriorityError (c : ParsedClient) (index : Nat) : ValidationError :=
  let safeId := safeClientId c index
  let pl := c.PriorityLevel
  { id := s!"client-priority-{safeId}-{index}"
    type := Severity.error
    entity := EntityKind.client
    entityId := safeId
    field := "PriorityLevel"
    message := s!"Priority level must be between 1-5, got: {pl}"
    suggestion := "Set priority level to a value between 1 and 5"
    autoFixAvailable := true }

/-- The dangling-task-reference error pushed by `validateClientData`. -/
def mkClientTaskRefError (c : ParsedClient) (index taskIndex : Nat) (taskId : String) :
    ValidationError :=
  let safeId := safeClientId c index
  { id := s!"client-task-ref-{safeId}-{index}-{taskIndex}"
    type := Severity.error
    entity := EntityKind.client
    entityId := safeId
    field := "RequestedTaskIDs"
    message := s!"Referenced task ID \"{taskId}\" does not exist"
    suggestion := "Remove invalid task ID or add the corresponding task"
    autoFixAvailable := true }

/-- The loop body of `validateClientData` for one row: duplicate check against
the seen set, priority bounds check, then one reference check per requested
task ID, in push order. -/
def clientRowErrors (taskIds : List String) (index : Nat) (seen : List String)
    (c : ParsedClient) : List ValidationError :=
  (if seen.contains c.ClientID then [mkClientDuplicateError c index] else []) ++
  (if c.PriorityLevel < 1 ∨ c.PriorityLevel > 5 then [mkClientPriorityError c index] else []) ++
  c.RequestedTaskIDs.enum.filterMap (fun p =>
    if taskIds.contains p.2 then none else some (mkClientTaskRefError c index p.1 p.2))

/-- The `forEach` of `validateClientData`, recursing over rows while growing
the seen-ID set. -/
def validateClientDataAux (taskIds : List String) :
    Nat → List String → List ParsedClient → List ValidationError
  | _, _, [] => []
  | i, seen, c :: rest =>
      clientRowErrors taskIds i seen c ++
      validateClientDataAux taskIds (i + 1) (c.ClientID :: seen) rest

/-- `validateClientData` from `lib/dataUtils.ts`. -/
def validateClientData (clients : List ParsedClient) (tasks : List ParsedTask) :
    List ValidationError :=
  validateClientDataAux (tasks.map (·.TaskID)) 0 [] clients

/-- `worker.WorkerID || `worker-${index}``. -/
def safeWorkerId (w : ParsedWorker) (index : Nat) : String :=
  if w.WorkerID = "" then s!"worker-{index}" else w.WorkerID

/-- The duplicate-ID error pushed by `validateWorkerData`. -/
def mkWorkerDuplicateError (w : ParsedWorker) (index : Nat) : ValidationError :=
  let safeId := safeWorkerId w index
  let wid := w.WorkerID
  { id := s!"worker-duplicate-{safeId}-{index}"
    type := Severity.error
    entity := EntityKind.worker
    entityId := safeId
    field := "WorkerID"
    message := s!"Duplicate Worker ID: {wid}"
    suggestion := "Ensure each worker has a unique ID"
    autoFixAvailable := false }

/-- The empty-slots error pushed by `validateWorkerData` (`AvailableSlots` is
always an array in the typed model, so only emptiness can trigger it). -/
def mkWorkerSlotsError (w : ParsedWorker) (index : Nat) : ValidationError :=
  let safeId := safeWorkerId w index
  { id := s!"worker-slots-{safeId}-{index}"
    type := Severity.error
    entity := EntityKind.worker
    entityId := safeId
    field := "AvailableSlots"
    message := "AvailableSlots must be a non-empty array of phase numbers"
    suggestion := "Add at least one available phase slot"
    autoFixAvailable := true }

/-- The max-load bound error pushed by `validateWorkerData`. -/
def mkWorkerLoadError (w : ParsedWorker) (index : Nat) : ValidationError :=
  let safeId := safeWorkerId w index
  { id := s!"worker-load-{safeId}-{index}"
    type := Severity.error
    entity := EntityKind.worker
    entityId := safeId
    field := "MaxLoadPerPhase"
    message := "MaxLoadPerPhase must be at least 1"
    suggestion := "Set MaxLoadPerPhase to a positive integer"
    autoFixAvailable := true }

/-- The load-vs-slots warning pushed by `validateWorkerData`. -/
def mkWorkerOverloadWarning (w : ParsedWorker) (index : Nat) : ValidationError :=
  let safeId := safeWorkerId w index
  { id := s!"worker-overload-{safeId}-{index}"
    type := Severity.warning
    entity := EntityKind.worker
    entityId := safeId
    field := "MaxLoadPerPhase"
    message := "MaxLoadPerPhase exceeds number of available slots"
    suggestion := "Reduce MaxLoadPerPhase or add more available slots"
    autoFixAvailable := true }

/-- The loop body of `validateWorkerData` for one row. -/
def workerRowErrors (index : Nat) (seen : List String) (w : ParsedWorker) :
    List ValidationError :=
  (if seen.contains w.WorkerID then [mkWorkerDuplicateError w index] else []) ++
  (if w.AvailableSlots.isEmpty then [mkWorkerSlotsError w index] else []) ++
  (if w.MaxLoadPerPhase < 1 then [mkWorkerLoadError w index] else []) ++
  (if (w.AvailableSlots.length : Int) < w.MaxLoadPerPhase then
    [mkWorkerOverloadWarning w index] else [])

/-- The `forEach` of `validateWorkerData`. -/
def validateWorkerDataAux : Nat → List String → List ParsedWorker → List ValidationError
  | _, _, [] => []
  | i, seen, w :: rest =>
      workerRowErrors i seen w ++ validateWorkerDataAux (i + 1) (w.WorkerID :: seen) rest

/-- `validateWorkerData` from `lib/dataUtils.ts`. -/
def validateWorkerData (workers : List ParsedWorker) : List ValidationError :=
  validateWorkerDataAux 0 [] workers

/-- `task.TaskID || `task-${index}``. -/
def safeTaskId (t : ParsedTask) (index : Nat) : String :=
  if t.TaskID = "" then s!"task-{index}" else t.TaskID

/-- The duplicate-ID error pushed by `validateTaskData`. -/
def mkTaskDuplicateError (t : ParsedTask) (index : Nat) : ValidationError :=
  let safeId := safeTaskId t index
  let tid := t.TaskID
  { id := s!"task-duplicate-{safeId}-{index}"
    type := Severity.error
    entity := EntityKind.task
    entityId := safeId
    field := "TaskID"
    message := s!"Duplicate Task ID: {tid}"
    suggestion := "Ensure each task has a unique ID"
    autoFixAvailable := false }

/-- The duration bound error pushed by `validateTaskData`. -/
def mkTaskDurationError (t : ParsedTask) (index : Nat) : ValidationError :=
  let safeId := safeTaskId t index
  { id := s!"task-duration-{safeId}-{index}"
    type := Severity.error
    entity := EntityKind.task
    entityId := safeId
    field := "Duration"
    message := "Duration must be at least 1 phase"
    suggestion := "Set duration to a positive integer"
    autoFixAvailable := true }

/-- The max-concurrent bound error pushed by `validateTaskData`. -/
def mkTaskConcurrentError (t : ParsedTask) (index : Nat) : ValidationError :=
  let safeId := safeTaskId t index
  { id := s!"task-concurrent-{safeId}-{index}"
    type := Severity.error
    entity := EntityKind.task
    entityId := safeId
    field := "MaxConcurrent"
    message := "MaxConcurrent must be at least 1"
    suggestion := "Set MaxConcurrent to a positive integer"
    autoFixAvailable := true }

/-- The uncovered-skill error pushed by `validateTaskData`. -/
def mkTaskSkillError (t : ParsedTask) (index skillIndex : Nat) (skill : String) :
    ValidationError :=
  let safeId := safeTaskId t index
  { id := s!"task-skill-{safeId}-{index}-{skillIndex}"
    type := Severity.error
    entity := EntityKind.task
    entityId := safeId
    field := "RequiredSkills"
    message := s!"Required skill \"{skill}\" is not available in any worker"
    suggestion := "Add a worker with this skill or remove the skill requirement"
    autoFixAvailable := false }

/-- The loop body of `validateTaskData` for one row. -/
def taskRowErrors (allWorkerSkills : List String) (index : Nat) (seen : List String)
    (t : ParsedTask) : List ValidationError :=
  (if seen.contains t.TaskID then [mkTaskDuplicateError t index] else []) ++
  (if t.Duration < 1 then [mkTaskDurationError t index] else []) ++
  (if t.MaxConcurrent < 1 then [mkTaskConcurrentError t index] else []) ++
  t.RequiredSkills.enum.filterMap (fun p =>
    if allWorkerSkills.contains p.2 then none else some (mkTaskSkillError t index p.1 p.2))

/-- The `forEach` of `validateTaskData`. -/
def validateTaskDataAux (allWorkerSkills : List String) :
    Nat → List String → List ParsedTask → List ValidationError
  | _, _, [] => []
  | i, seen, t :: rest =>
      taskRowErrors allWorkerSkills i seen t ++
      validateTaskDataAux allWorkerSkills (i + 1) (t.TaskID :: seen) rest

/-- `validateTaskData` from `lib/dataUtils.ts`; the worker-skill set is the
union of all workers' skills, membership-tested only. -/
def validateTaskData (tasks : List ParsedTask) (workers : List ParsedWorker) :
    List ValidationError :=
  validateTaskDataAux (workers.flatMap (·.Skills)) 0 [] tasks

/-! ### Cross-reference analyzer (`validateCrossReferences`)

The source accumulates `Map<number, number>`s; a JavaScript `Map` preserves
key insertion order, which an association list models exactly. -/

/-- `map.set(k, (map.get(k) || 0) + v)`: update in place or append. -/
def bumpAssoc (al : List (Int × Int)) (k v : Int) : List (Int × Int) :=
  match al with
  | [] => [(k, v)]
  | (k2, v2) :: rest =>
      if k2 = k then (k2, v2 + v) :: rest else (k2, v2) :: bumpAssoc rest k v

/-- `map.get(k)`. -/
def lookupAssoc : List (Int × Int) → Int → Option Int
  | [], _ => none
  | (k2, v2) :: rest, k => if k2 = k then some v2 else lookupAssoc rest k

/-- `phaseSlotMap`: each occurrence of a phase in a worker's `AvailableSlots`
adds that worker's `MaxLoadPerPhase`. -/
def phaseSlotMap (workers : List ParsedWorker) : List (Int × Int) :=
  workers.foldl
    (fun al w => w.AvailableSlots.foldl (fun al2 phase => bumpAssoc al2 phase w.MaxLoadPerPhase) al)
    []

/-- `phaseDemandMap`: each occurrence of a phase in a task's
`PreferredPhases` adds that task's `Duration`. -/
def phaseDemandMap (tasks : List ParsedTask) : List (Int × Int) :=
  tasks.foldl
    (fun al t => t.PreferredPhases.foldl (fun al2 phase => bumpAssoc al2 phase t.Duration) al)
    []

/-- The phase-saturation warning pushed by `validateCrossReferences`. -/
def mkSaturationWarning (phase demand supply : Int) : ValidationError :=
  { id := s!"phase-saturation-{phase}"
    type := Severity.warning
    entity := EntityKind.task
    entityId := s!"phase-{phase}"
    field := "PreferredPhases"
    message := s!"Phase {phase} is oversaturated: demand {demand} > supply {supply}"
    suggestion := "Add more workers to this phase or adjust task preferences"
    autoFixAvailable := false }

/-- `validateCrossReferences` from `lib/dataUtils.ts`: iterate the demand map
in insertion order and warn where demand exceeds supply.  The `clients`
argument is accepted and ignored, as in the source. -/
def validateCrossReferences (clients : List ParsedClient) (workers : List ParsedWorker)
    (tasks : List ParsedTask) : List ValidationError :=
  let _ := clients
  (phaseDemandMap tasks).filterMap (fun pd =>
    let supply := (lookupAssoc (phaseSlotMap workers) pd.1).getD 0
    if pd.2 > supply then some (mkSaturationWarning pd.1 pd.2 supply) else none)

/-! ### Export gate (`components/ExportSection.tsx`) -/

/-- `dataState.errors.filter(e => e.type === 'error').length`. -/
def errorCount (errors : List ValidationError) : Nat :=
  (errors.filter (fun e => e.type == Severity.error)).length

/-- `dataState.errors.filter(e => e.type === 'warning').length`. -/
def warningCount (errors : List ValidationError) : Nat :=
  (errors.filter (fun e => e.type == Severity.warning)).length

/-- The artifacts `exportData('csv')` produces when the gate passes: one CSV
per non-empty collection plus the JSON config with its metadata. -/
structure ExportBundle where
  clientsCSV : Option (List ParsedClient)
  workersCSV : Option (List ParsedWorker)
  tasksCSV : Option (List ParsedTask)
  validationPassed : Bool
  totalErrors : Nat
  totalWarnings : Nat
deriving DecidableEq, Repr

/-- `ExportSection.exportData`: returns early (no export) unless
`validationPassed`, i.e. unless the error-severity count is zero. -/
def exportData (ds : DataState) : Option ExportBundle :=
  if errorCount ds.errors = 0 then
    some
      { clientsCSV := if ds.clients.isEmpty then none else some ds.clients
        workersCSV := if ds.workers.isEmpty then none else some ds.workers
        tasksCSV := if ds.tasks.isEmpty then none else some ds.tasks
        validationPassed := true
        totalErrors := errorCount ds.errors
        totalWarnings := warningCount ds.errors }
  else none

/-! ### Auto-fix resolvers

`AIValidationService.applyFix` (service path) and `ValidationPanel.autoFixError`
(panel fallback path, with no AI suggestions present).  Both are modelled as
total functions returning the merged `DataState`: the source returns a
`Partial<DataState>` whose omitted collections the caller keeps unchanged. -/

/-- `AIValidationService.getValidPriorityLevel`: below range defaults to 3,
above range caps at 5, otherwise rounds (identity on the integer model). -/
def getValidPriorityLevel (current : Int) : Int :=
  if current < 1 then 3 else if current > 5 then 5 else current

/-- `AIValidationService.getDefaultSkills`. -/
def getDefaultSkills (currentSkills : List String) : List String :=
  if currentSkills.isEmpty then ["General"]
  else currentSkills.filter (fun s => jsTrim s != "")

/-- `(k, 1)` insertion / increment on the skill-count object (string keys keep
insertion order). -/
def bumpSkillCount (al : List (String × Nat)) (k : String) : List (String × Nat) :=
  match al with
  | [] => [(k, 1)]
  | (k2, v2) :: rest =>
      if k2 = k then (k2, v2 + 1) :: rest else (k2, v2) :: bumpSkillCount rest k

/-- `skillCounts` built inside `getDefaultRequiredSkills`. -/
def skillCounts (workers : List ParsedWorker) : List (String × Nat) :=
  ((workers.flatMap (·.Skills)).filter (fun s => jsTrim s != "")).foldl bumpSkillCount []

/-- `counts[k]` as an optional value (`undefined` when absent). -/
def lookupSkillCount (al : List (String × Nat)) (k : String) : Option Nat :=
  (al.find? (fun p => p.1 == k)).map (·.2)

/-- `Object.keys(skillCounts).reduce((a, b) => counts[a] > counts[b] ? a : b,
'General')`: a comparison against `undefined` is false, so the candidate `b`
wins whenever the accumulator is not a key. -/
def mostCommonSkill (workers : List ParsedWorker) : String :=
  let counts := skillCounts workers
  (counts.map (·.1)).foldl
    (fun a b =>
      match lookupSkillCount counts a, lookupSkillCount counts b with
      | some ca, some cb => if ca > cb then a else b
      | _, _ => b)
    "General"

/-- `AIValidationService.getDefaultRequiredSkills`. -/
def getDefaultRequiredSkills (currentSkills : List String) (workers : List ParsedWorker) :
    List String :=
  if currentSkills.isEmpty then [mostCommonSkill workers]
  else currentSkills.filter (fun s => jsTrim s != "")

/-- `AIValidationService.applyFix`: switch on the error's field, guard on its
entity, rewrite every record whose ID equals the error's `entityId`, and drop
the fixed error from the outstanding list only when an update was produced;
otherwise the state is returned unchanged (a decline). -/
def applyFix (error : ValidationError) (ds : DataState) : DataState :=
  if error.field = "PriorityLevel" ∧ error.entity = EntityKind.client then
    { ds with
      clients := ds.clients.map (fun c =>
        if c.ClientID = error.entityId then
          { c with PriorityLevel := getValidPriorityLevel c.PriorityLevel } else c)
      errors := ds.errors.filter (fun x => x.id != error.id) }
  else if error.field = "Duration" ∧ error.entity = EntityKind.task then
    { ds with
      tasks := ds.tasks.map (fun t =>
        if t.TaskID = error.entityId then { t with Duration := max 1 t.Duration } else t)
      errors := ds.errors.filter (fun x => x.id != error.id) }
  else if error.field = "MaxLoadPerPhase" ∧ error.entity = EntityKind.worker then
    { ds with
      workers := ds.workers.map (fun w =>
        if w.WorkerID = error.entityId then
          { w with MaxLoadPerPhase := max 1 w.MaxLoadPerPhase } else w)
      errors := ds.errors.filter (fun x => x.id != error.id) }
  else if error.field = "Skills" ∧ error.entity = EntityKind.worker then
    { ds with
      workers := ds.workers.map (fun w =>
        if w.WorkerID = error.entityId then { w with Skills := getDefaultSkills w.Skills } else w)
      errors := ds.errors.filter (fun x => x.id != error.id) }
  else if error.field = "RequiredSkills" ∧ error.entity = EntityKind.task then
    { ds with
      tasks := ds.tasks.map (fun t =>
        if t.TaskID = error.entityId then
          { t with RequiredSkills := getDefaultRequiredSkills t.RequiredSkills ds.workers } else t)
      errors := ds.errors.filter (fun x => x.id != error.id) }
  else ds

/-- `Math.max(1, Math.min(5, p))`: the panel's fallback priority clamp. -/
def panelClampPriority (p : Int) : Int :=
  max 1 (min 5 p)

/-- `ValidationPanel.autoFixError` (fallback path, no AI suggestions): returns
unchanged when the error is not auto-fixable; otherwise applies whichever of
the three field-specific rewrites matches and then unconditionally removes the
error from the outstanding list — even when no rewrite matched. -/
def autoFixError (error : ValidationError) (ds : DataState) : DataState :=
  if error.autoFixAvailable = false then ds
  else
    let ds1 :=
      if error.field = "PriorityLevel" ∧ error.entity = EntityKind.client then
        { ds with
          clients := ds.clients.map (fun c =>
            if c.ClientID = error.entityId then
              { c with PriorityLevel := panelClampPriority c.PriorityLevel } else c) }
      else ds
    let ds2 :=
      if error.field = "Duration" ∧ error.entity = EntityKind.task then
        { ds1 with
          tasks := ds1.tasks.map (fun t =>
            if t.TaskID = error.entityId then { t with Duration := max 1 t.Duration } else t) }
      else ds1
    let ds3 :=
      if error.field = "MaxLoadPerPhase" ∧ error.entity = EntityKind.worker then
        { ds2 with
          workers := ds2.workers.map (fun w =>
            if w.WorkerID = error.entityId then
              { w with MaxLoadPerPhase := max 1 w.MaxLoadPerPhase } else w) }
      else ds2
    { ds3 with errors := ds3.errors.filter (fun x => x.id != error.id) }

/-! ### Specification-side reference definitions

These follow the wording of the specification (or of the amended claims) and
are compared against the source-derived definitions above. -/

/-- The comma-list grammar as the amended claim states it: split on `','`,
trim every token, keep empty tokens; empty input gives the empty list. -/
def specCommaList (s : String) : List String :=
  if s = "" then [] else (jsSplit ',' s).map jsTrim

/-- The work-unit numeric-list grammar as the amended claim states it:
dash-first dispatch.  A cell containing `'-'` anywhere takes the
inclusive-range path — `parseInt` of the first two `'-'`-separated tokens,
with a non-numeric bound or an inverted range giving the empty list — so
negative numbers written in array or comma syntax also fall into the range
path.  Otherwise a cell starting with `'['` is parsed as a JSON array
(failure giving the empty list); otherwise comma-separated `parseInt` tokens
with non-numeric ones dropped. -/
def specPhaseGrammar (s : String) : List Int :=
  if s.toList.contains '-' then
    match splitOnCharList '-' s.toList with
    | a :: b :: _ =>
        match jsParseIntL a, jsParseIntL b with
        | some lo, some hi => rangeFromTo lo hi
        | _, _ => []
    | _ => []
  else if s.toList.head? == some '[' then (jsonParseIntArray s).getD []
  else (splitOnCharList ',' s.toList).filterMap jsParseIntL

/-- The provider numeric-list grammar as the amended claim states it: only
the bracketed JSON-array syntax is recognized; everything else degrades to
the empty list. -/
def specSlotsGrammar (s : String) : List Int :=
  (jsonParseIntArray s).getD []

/-- Number of list elements that repeat an element seen at a smaller index
(given an initial seen set): the count of "later occurrences" of duplicated
IDs the uniqueness rule should flag. -/
def specDupCount : List String → List String → Nat
  | _, [] => 0
  | seen, idv :: rest => (if seen.contains idv then 1 else 0) + specDupCount (idv :: seen) rest

/-- First occurrence of every element, in order of first appearance. -/
def dedupFirst : List Int → List Int
  | [] => []
  | x :: xs => x :: dedupFirst (xs.filter (fun y => y != x))
termination_by l => l.length
decreasing_by
  simp only [List.length_cons]
  exact Nat.lt_succ_of_le (List.length_filter_le _ _)

/-- Occurrence-weighted phase supply: every occurrence of the phase in a
worker's `AvailableSlots` contributes that worker's `MaxLoadPerPhase`. -/
def specSupply (workers : List ParsedWorker) (phase : Int) : Int :=
  (workers.map (fun w => ((w.AvailableSlots.count phase : Int)) * w.MaxLoadPerPhase)).sum

/-- Occurrence-weighted phase demand: every occurrence of the phase in a
task's `PreferredPhases` contributes that task's `Duration`. -/
def specDemand (tasks : List ParsedTask) (phase : Int) : Int :=
  (tasks.map (fun t => ((t.PreferredPhases.count phase : Int)) * t.Duration)).sum

/-- The `(phase, weight)` contributions of the workers, in iteration order. -/
def supplyPairs (workers : List ParsedWorker) : List (Int × Int) :=
  workers.flatMap (fun w => w.AvailableSlots.map (fun p => (p, w.MaxLoadPerPhase)))

/-- The `(phase, weight)` contributions of the tasks, in iteration order. -/
def demandPairs (tasks : List ParsedTask) : List (Int × Int) :=
  tasks.flatMap (fun t => t.PreferredPhases.map (fun p => (p, t.Duration)))

/-- Fold a pair list into the insertion-ordered accumulation map. -/
def buildMap (pairs : List (Int × Int)) : List (Int × Int) :=
  pairs.foldl (fun al pv => bumpAssoc al pv.1 pv.2) []

/-- Total weight a pair list assigns to one key. -/
def weightOf (pairs : List (Int × Int)) (k : Int) : Int :=
  ((pairs.filter (fun pv => pv.1 == k)).map (·.2)).sum

/-! ### Frame relations for fix application

`clientFrame e f old new` says: the client record is untouched unless the
error targets clients, names this record's ID, and fixes `PriorityLevel`, in
which case only `PriorityLevel` changes, to `f old.PriorityLevel`.  The
worker/task relations are analogous with their two fixable fields. -/

def clientFrame (e : ValidationError) (prioFix : Int → Int)
    (old new : ParsedClient) : Prop :=
  (e.entity ≠ EntityKind.client → new = old) ∧
  (old.ClientID ≠ e.entityId → new = old) ∧
  (e.field ≠ "PriorityLevel" → new = old) ∧
  new.ClientID = old.ClientID ∧ new.ClientName = old.ClientName ∧
  new.GroupTag = old.GroupTag ∧ new.RequestedTaskIDs = old.RequestedTaskIDs ∧
  new.AttributesJSON = old.AttributesJSON ∧
  (e.field = "PriorityLevel" → e.entity = EntityKind.client → old.ClientID = e.entityId →
    new.PriorityLevel = prioFix old.PriorityLevel)

def workerFrame (e : ValidationError) (loadFix : Int → Int)
    (skillsFix : List String → List String) (old new : ParsedWorker) : Prop :=
  (e.entity ≠ EntityKind.worker → new = old) ∧
  (old.WorkerID ≠ e.entityId → new = old) ∧
  (e.field ≠ "MaxLoadPerPhase" → e.field ≠ "Skills" → new = old) ∧
  new.WorkerID = old.WorkerID ∧ new.WorkerName = old.WorkerName ∧
  new.AvailableSlots = old.AvailableSlots ∧ new.WorkerGroup = old.WorkerGroup ∧
  new.QualificationLevel = old.QualificationLevel ∧
  (e.field ≠ "MaxLoadPerPhase" → new.MaxLoadPerPhase = old.MaxLoadPerPhase) ∧
  (e.field ≠ "Skills" → new.Skills = old.Skills) ∧
  (e.field = "MaxLoadPerPhase" → e.entity = EntityKind.worker → old.WorkerID = e.entityId →
    new.MaxLoadPerPhase = loadFix old.MaxLoadPerPhase) ∧
  (e.field = "Skills" → e.entity = EntityKind.worker → old.WorkerID = e.entityId →
    new.Skills = skillsFix old.Skills)

def taskFrame (e : ValidationError) (durFix : Int → Int)
    (reqSkillsFix : List String → List String) (old new : ParsedTask) : Prop :=
  (e.entity ≠ EntityKind.task → new = old) ∧
  (old.TaskID ≠ e.entityId → new = old) ∧
  (e.field ≠ "Duration" → e.field ≠ "RequiredSkills" → new = old) ∧
  new.TaskID = old.TaskID ∧ new.TaskName = old.TaskName ∧
  new.Category = old.Category ∧ new.PreferredPhases = old.PreferredPhases ∧
  new.MaxConcurrent = old.MaxConcurrent ∧
  (e.field ≠ "Duration" → new.Duration = old.Duration) ∧
  (e.field ≠ "RequiredSkills" → new.RequiredSkills = old.RequiredSkills) ∧
  (e.field = "Duration" → e.entity = EntityKind.task → old.TaskID = e.entityId →
    new.Duration = durFix old.Duration) ∧
  (e.field = "RequiredSkills" → e.entity = EntityKind.task → old.TaskID = e.entityId →
    new.RequiredSkills = reqSkillsFix old.RequiredSkills)

/-! ### Concrete sample records used by counterexamples and witnesses -/

/-- A raw requester row with the given `RequestedTaskIDs` cell, other cells
benign. -/
def mkClientRow (reqIds : String) : Client :=
  { ClientID := "C1", ClientName := "Alice", PriorityLevel := 3,
    RequestedTaskIDs := reqIds, GroupTag := "g", AttributesJSON := "" }

/-- A raw provider row with the given `AvailableSlots` cell. -/
def mkWorkerRow (slots : String) : Worker :=
  { WorkerID := "W1", WorkerName := "Wendy", Skills := "js",
    AvailableSlots := slots, MaxLoadPerPhase := 1, WorkerGroup := "g",
    QualificationLevel := "junior" }

/-- A raw work-unit row with the given `PreferredPhases` cell. -/
def mkTaskRow (phases : String) : Task :=
  { TaskID := "T1", TaskName := "Build", Category := "dev", Duration := 1,
    RequiredSkills := "js", PreferredPhases := phases, MaxConcurrent := 1 }

/-- A parsed requester with a valid priority and no requested tasks. -/
def demoGoodClient : ParsedClient :=
  { ClientID := "C1", ClientName := "Alice", PriorityLevel := 3,
    RequestedTaskIDs := [], GroupTag := "g", AttributesJSON := [] }

/-- A parsed requester with the out-of-range priority 0. -/
def demoBadClient : ParsedClient :=
  { ClientID := "C2", ClientName := "Bob", PriorityLevel := 0,
    RequestedTaskIDs := [], GroupTag := "g", AttributesJSON := [] }

/-- A parsed requester with the out-of-range priority 6. -/
def demoSixClient : ParsedClient :=
  { demoBadClient with PriorityLevel := 6 }

/-- Fallback record for `headD`. -/
def defaultValidationError : ValidationError :=
  { id := "", type := Severity.info, entity := EntityKind.client, entityId := "",
    field := "", message := "", suggestion := "", autoFixAvailable := false }

/-- C3 failing input: one requester referencing the existing "T1" and the
nonexistent "T99". -/
def c3Clients : List ParsedClient :=
  [{ ClientID := "C1", ClientName := "Alice", PriorityLevel := 3,
     RequestedTaskIDs := ["T1", "T99"], GroupTag := "g", AttributesJSON := [] }]

/-- C3 failing input: the work-unit collection containing only "T1". -/
def c3Tasks : List ParsedTask :=
  [{ TaskID := "T1", TaskName := "Build", Category := "dev", Duration := 1,
     RequiredSkills := [], PreferredPhases := [], MaxConcurrent := 1 }]

/-- The single diagnostic validation emits on the C3 failing input. -/
def c3Error : ValidationError :=
  (validateClientData c3Clients c3Tasks).headD defaultValidationError

/-- The application state holding the C3 failing input and its diagnostics. -/
def c3State : DataState :=
  { clients := c3Clients, workers := [], tasks := c3Tasks, isLoading := false,
    errors := validateClientData c3Clients c3Tasks }

/-- One provider available in phase 1 with per-phase capacity 2. -/
def demoWorkerPhase1 : ParsedWorker :=
  { WorkerID := "W1", WorkerName := "Wendy", Skills := ["js"],
    AvailableSlots := [1], MaxLoadPerPhase := 2, WorkerGroup := "g",
    QualificationLevel := "junior" }

/-- The same provider with phase 1 listed twice in `AvailableSlots`. -/
def demoWorkerDupSlot : ParsedWorker :=
  { demoWorkerPhase1 with AvailableSlots := [1, 1] }

/-- One work unit preferring phase 1 with duration 3. -/
def demoTaskPhase1 : ParsedTask :=
  { TaskID := "T1", TaskName := "Build", Category := "dev", Duration := 3,
    RequiredSkills := [], PreferredPhases := [1], MaxConcurrent := 1 }

/-- Two parsed requesters sharing the ID "C1". -/
def demoDupClients : List ParsedClient :=
  [demoGoodClient, { demoGoodClient with ClientName := "Alicia" }]

/-- The duplicate diagnostic produced on `demoDupClients`. -/
def demoDupError : ValidationError :=
  ((validateClientData demoDupClients []).filter
    (fun e => e.field == "ClientID")).headD defaultValidationError

/-- A state whose diagnostics are two warnings and no errors. -/
def demoWarningState : DataState :=
  { clients := [demoGoodClient], workers := [demoWorkerPhase1],
    tasks := [demoTaskPhase1], isLoading := false,
    errors := [mkSaturationWarning 1 3 2, mkWorkerOverloadWarning demoWorkerPhase1 0] }

/-! ## Claim theorems -/

/-- C1 (counterexample): the comma-list normalizer does NOT drop empty
tokens — the input `"a,,b"` yields the element `""`, refuting the claim that
an input with consecutive commas never yields an empty-string element. -/
theorem c1_empty_tokens_kept_counterexample :
    (parseClientData [mkClientRow "a,,b"]).map (·.RequestedTaskIDs) = [["a", "", "b"]] ∧
    "" ∈ jsCommaSplitTrim "a,,b" := by
  decide

/-- C1 (amended): every comma-list field (requester `RequestedTaskIDs`,
provider `Skills`, work-unit `RequiredSkills`) is normalized by splitting on
`','` and trimming each token, with empty tokens KEPT (so `"a,,b"` gives
`["a", "", "b"]` and `"a,"` gives `["a", ""]`); an empty or missing input
yields the empty list. -/
theorem c1_comma_list_amended :
    (∀ c : Client, (parseClient c).RequestedTaskIDs = specCommaList c.RequestedTaskIDs) ∧
    (∀ w : Worker, (parseWorker w).Skills = specCommaList w.Skills) ∧
    (∀ t : Task, (parseTask t).RequiredSkills = specCommaList t.RequiredSkills) ∧
    specCommaList "" = [] ∧
    specCommaList "a,,b" = ["a", "", "b"] ∧
    specCommaList " a , b " = ["a", "b"] ∧
    specCommaList "a," = ["a", ""] := by
  refine ⟨fun c => rfl, fun w => rfl, fun t => rfl, ?_, ?_, ?_, ?_⟩ <;> decide

/-- C2 (counterexample): diagnostic ids embed the row index, so moving the
same defective requester from row 0 to row 1 changes the id of its (only)
diagnostic — refuting order-independence of diagnostic identity. -/
theorem c2_row_index_in_id_counterexample :
    (validateClientData [demoBadClient, demoGoodClient] []).map (·.id) =
      ["client-priority-C2-0"] ∧
    (validateClientData [demoGoodClient, demoBadClient] []).map (·.id) =
      ["client-priority-C2-1"] ∧
    ("client-priority-C2-0" : String) ≠ "client-priority-C2-1" := by
  decide

/-- C2 (amended): for every entity kind, a row's diagnostics (ids included)
are a deterministic function of the row's content, its row index, the
relevant lookup set (referenced task IDs for requesters, the global
worker-skill set for work units) and the membership of the row's ID in the
already-seen set — not of any other surrounding rows or of a global counter;
identical runs reproduce identical ids, but the embedded row index makes ids
change when rows are reordered. -/
theorem c2_id_context_amended :
    (∀ (taskIds : List String) (i : Nat) (seen seen2 : List String) (c : ParsedClient),
      seen.contains c.ClientID = seen2.contains c.ClientID →
      clientRowErrors taskIds i seen c = clientRowErrors taskIds i seen2 c) ∧
    (∀ (i : Nat) (seen seen2 : List String) (w : ParsedWorker),
      seen.contains w.WorkerID = seen2.contains w.WorkerID →
      workerRowErrors i seen w = workerRowErrors i seen2 w) ∧
    (∀ (allWorkerSkills : List String) (i : Nat) (seen seen2 : List String) (t : ParsedTask),
      seen.contains t.TaskID = seen2.contains t.TaskID →
      taskRowErrors allWorkerSkills i seen t = taskRowErrors allWorkerSkills i seen2 t) := by
  refine ⟨?_, ?_, ?_⟩
  · intro taskIds i seen seen2 c h
    unfold clientRowErrors
    rw [h]
  · intro i seen seen2 w h
    unfold workerRowErrors
    rw [h]
  · intro allWorkerSkills i seen seen2 t h
    unfold taskRowErrors
    rw [h]

/-- C2 witness: the amended theorem applied at a concrete requester, provider
and work unit, each under two different (but equally non-colliding) seen
sets. -/
theorem c2_id_context_witness :
    clientRowErrors ["T1"] 0 [] demoGoodClient =
      clientRowErrors ["T1"] 0 ["Z"] demoGoodClient ∧
    workerRowErrors 0 [] demoWorkerPhase1 = workerRowErrors 0 ["Z"] demoWorkerPhase1 ∧
    taskRowErrors ["js"] 0 [] demoTaskPhase1 = taskRowErrors ["js"] 0 ["Z"] demoTaskPhase1 :=
  ⟨c2_id_context_amended.1 ["T1"] 0 [] ["Z"] demoGoodClient (by decide),
    c2_id_context_amended.2.1 0 [] ["Z"] demoWorkerPhase1 (by decide),
    c2_id_context_amended.2.2 ["js"] 0 [] ["Z"] demoTaskPhase1 (by decide)⟩

/-- C3 (code bug): on the failing input — a requester referencing the
nonexistent "T99" — validation emits exactly one diagnostic, marked
`autoFixAvailable`; yet the panel's `autoFixError` leaves the requester's
`RequestedTaskIDs` (and all data) unchanged while still deleting the
diagnostic from the outstanding list, and the service's `applyFix` declines
entirely (returns the state unchanged).  No fix path removes "T99", so the
diagnostic is dropped without the corresponding fix being applied,
contradicting the claim and the diagnostic's own `autoFixAvailable`/
"Remove invalid task ID" metadata. -/
theorem c3_dangling_ref_fix_code_bug :
    (validateClientData c3Clients c3Tasks).length = 1 ∧
    c3Error.field = "RequestedTaskIDs" ∧
    c3Error.entity = EntityKind.client ∧
    c3Error.entityId = "C1" ∧
    c3Error.type = Severity.error ∧
    c3Error.autoFixAvailable = true ∧
    (autoFixError c3Error c3State).clients = c3State.clients ∧
    (autoFixError c3Error c3State).errors = [] ∧
    applyFix c3Error c3State = c3State := by
  decide

/-- C5 (counterexample): the provider's `AvailableSlots` normalizer does not
understand the range syntax — `"1-3"` degrades to `[]` rather than the
claimed `[1, 2, 3]`. -/
theorem c5_available_slots_range_counterexample :
    (parseWorkerData [mkWorkerRow "1-3"]).map (·.AvailableSlots) = [[]] ∧
    ([] : List Int) ≠ [1, 2, 3] := by
  decide

/-- C5 (amended): the work-unit `PreferredPhases` normalizer does not try the
three syntaxes in first-structurally-matching order — it dispatches on a
dash first: a cell containing `'-'` anywhere takes the inclusive-range path
(`parseInt` of the first two `'-'`-separated tokens, a non-numeric bound or
inverted range giving `[]`), so negative numbers written in array or comma
syntax fall into the range path (`"1,-2"` gives `[1, 2]`, `"[1,-2]"` gives
`[]`); otherwise a cell starting with `'['` is parsed as a JSON array
(failure giving `[]`); otherwise comma-separated integers with non-numeric
tokens dropped.  The provider `AvailableSlots` normalizer accepts only the
bracketed-array syntax — range and bare comma-list inputs degrade to the
empty list.  Proved universally against the spec-side grammars, with the
dash-free cells behaving as the original claim's examples state. -/
theorem c5_numeric_list_grammar_amended :
    (∀ t : Task, (parseTask t).PreferredPhases = specPhaseGrammar t.PreferredPhases) ∧
    (∀ w : Worker, (parseWorker w).AvailableSlots = specSlotsGrammar w.AvailableSlots) ∧
    specPhaseGrammar "1-3" = [1, 2, 3] ∧
    specPhaseGrammar "[2,4]" = [2, 4] ∧
    specPhaseGrammar "1, 2, x" = [1, 2] ∧
    specPhaseGrammar "3-1" = [] ∧
    specPhaseGrammar "1,-2" = [1, 2] ∧
    specPhaseGrammar "[1,-2]" = [] ∧
    specSlotsGrammar "[2,4]" = [2, 4] ∧
    specSlotsGrammar "1-3" = [] ∧
    specSlotsGrammar "1, 2, x" = [] := by
  refine ⟨fun t => rfl, fun w => rfl, ?_, ?_, ?_, ?_, ?_, ?_, ?_, ?_, ?_⟩ <;> decide

/-- C8: export is performed exactly when the diagnostic list contains no
error-severity entries; a state with only warnings (second conjunct) still
exports. -/
theorem c8_export_gate :
    (∀ ds : DataState,
      (exportData ds).isSome ↔ ds.errors.filter (fun e => e.type == Severity.error) = []) ∧
    (exportData demoWarningState).isSome = true := by
  constructor
  · intro ds
    constructor
    · intro hs
      by_cases h : errorCount ds.errors = 0
      · exact List.length_eq_zero.mp h
      · simp [exportData, h] at hs
    · intro hf
      have h : errorCount ds.errors = 0 := by
        unfold errorCount
        rw [hf]
        rfl
      simp [exportData, h]
  · decide

/-! ### Row-filter lemmas for the per-row validators -/

/-- The task-reference errors of a client row never match a predicate that
rejects every `mkClientTaskRefError`. -/
theorem clientRefs_filter_eq_nil (taskIds : List String) (i : Nat) (c : ParsedClient)
    (p : ValidationError → Bool)
    (hp : ∀ ti tid, p (mkClientTaskRefError c i ti tid) = false) :
    (c.RequestedTaskIDs.enum.filterMap (fun q =>
      if taskIds.contains q.2 then none else some (mkClientTaskRefError c i q.1 q.2))).filter p
      = [] := by
  rw [List.filter_eq_nil_iff]
  intro e he
  obtain ⟨q, _, he2⟩ := List.mem_filterMap.mp he
  by_cases h : taskIds.contains q.2
  · rw [if_pos h] at he2
    exact absurd he2 (by simp)
  · rw [if_neg h] at he2
    rw [← Option.some.inj he2]
    simp [hp]

/-- The uncovered-skill errors of a task row never match a predicate that
rejects every `mkTaskSkillError`. -/
theorem taskSkills_filter_eq_nil (allWorkerSkills : List String) (i : Nat) (t : ParsedTask)
    (p : ValidationError → Bool)
    (hp : ∀ si skill, p (mkTaskSkillError t i si skill) = false) :
    (t.RequiredSkills.enum.filterMap (fun q =>
      if allWorkerSkills.contains q.2 then none else some (mkTaskSkillError t i q.1 q.2))).filter p
      = [] := by
  rw [List.filter_eq_nil_iff]
  intro e he
  obtain ⟨q, _, he2⟩ := List.mem_filterMap.mp he
  by_cases h : allWorkerSkills.contains q.2
  · rw [if_pos h] at he2
    exact absurd he2 (by simp)
  · rw [if_neg h] at he2
    rw [← Option.some.inj he2]
    simp [hp]

/-- A client row's diagnostics restricted to the `PriorityLevel` field are
exactly the priority-range error, present iff the priority is out of range. -/
theorem clientRow_filter_priority (taskIds : List String) (i : Nat) (seen : List String)
    (c : ParsedClient) :
    (clientRowErrors taskIds i seen c).filter (fun e => e.field == "PriorityLevel") =
      if c.PriorityLevel < 1 ∨ c.PriorityLevel > 5 then [mkClientPriorityError c i] else [] := by
  unfold clientRowErrors
  rw [List.filter_append, List.filter_append,
    clientRefs_filter_eq_nil taskIds i c _ (fun ti tid => by simp [mkClientTaskRefError])]
  by_cases hd : seen.contains c.ClientID <;>
    by_cases hp : c.PriorityLevel < 1 ∨ c.PriorityLevel > 5 <;>
      simp [hd, hp, mkClientDuplicateError, mkClientPriorityError]

/-- A client row's diagnostics restricted to the `ClientID` field are exactly
the duplicate error, present iff the ID was already seen. -/
theorem clientRow_filter_dup (taskIds : List String) (i : Nat) (seen : List String)
    (c : ParsedClient) :
    (clientRowErrors taskIds i seen c).filter (fun e => e.field == "ClientID") =
      if seen.contains c.ClientID then [mkClientDuplicateError c i] else [] := by
  unfold clientRowErrors
  rw [List.filter_append, List.filter_append,
    clientRefs_filter_eq_nil taskIds i c _ (fun ti tid => by simp [mkClientTaskRefError])]
  by_cases hd : seen.contains c.ClientID <;>
    by_cases hp : c.PriorityLevel < 1 ∨ c.PriorityLevel > 5 <;>
      simp [hd, hp, mkClientDuplicateError, mkClientPriorityError]

/-- A worker row's diagnostics restricted to the `WorkerID` field are exactly
the duplicate error, present iff the ID was already seen. -/
theorem workerRow_filter_dup (i : Nat) (seen : List String) (w : ParsedWorker) :
    (workerRowErrors i seen w).filter (fun e => e.field == "WorkerID") =
      if seen.contains w.WorkerID then [mkWorkerDuplicateError w i] else [] := by
  unfold workerRowErrors
  by_cases hd : seen.contains w.WorkerID <;>
    by_cases hs : w.AvailableSlots.isEmpty <;>
      by_cases hl : w.MaxLoadPerPhase < 1 <;>
        by_cases ho : (w.AvailableSlots.length : Int) < w.MaxLoadPerPhase <;>
          simp [hd, hs, hl, ho, mkWorkerDuplicateError, mkWorkerSlotsError, mkWorkerLoadError,
            mkWorkerOverloadWarning]

/-- A task row's diagnostics restricted to the `TaskID` field are exactly the
duplicate error, present iff the ID was already seen. -/
theorem taskRow_filter_dup (allWorkerSkills : List String) (i : Nat) (seen : List String)
    (t : ParsedTask) :
    (taskRowErrors allWorkerSkills i seen t).filter (fun e => e.field == "TaskID") =
      if seen.contains t.TaskID then [mkTaskDuplicateError t i] else [] := by
  unfold taskRowErrors
  rw [List.filter_append, List.filter_append, List.filter_append,
    taskSkills_filter_eq_nil allWorkerSkills i t _ (fun si skill => by simp [mkTaskSkillError])]
  by_cases hd : seen.contains t.TaskID <;>
    by_cases hu : t.Duration < 1 <;>
      by_cases hc : t.MaxConcurrent < 1 <;>
        simp [hd, hu, hc, mkTaskDuplicateError, mkTaskDurationError, mkTaskConcurrentError]

/-! ### Duplicate-count lemmas -/

/-- The number of `ClientID`-field diagnostics produced by the client
validator loop equals the later-occurrence count relative to the seen set. -/
theorem clientAux_dup_count (taskIds : List String) :
    ∀ (cs : List ParsedClient) (n : Nat) (seen : List String),
      ((validateClientDataAux taskIds n seen cs).filter (fun e => e.field == "ClientID")).length
        = specDupCount seen (cs.map (·.ClientID)) := by
  intro cs
  induction cs with
  | nil => intro n seen; simp [validateClientDataAux, specDupCount]
  | cons c rest ih =>
      intro n seen
      rw [validateClientDataAux, List.filter_append, List.length_append,
        clientRow_filter_dup, ih]
      simp only [List.map_cons, specDupCount]
      by_cases h : c.ClientID ∈ seen <;> simp [h]

/-- Same count for the worker validator loop. -/
theorem workerAux_dup_count :
    ∀ (ws : List ParsedWorker) (n : Nat) (seen : List String),
      ((validateWorkerDataAux n seen ws).filter (fun e => e.field == "WorkerID")).length
        = specDupCount seen (ws.map (·.WorkerID)) := by
  intro ws
  induction ws with
  | nil => intro n seen; simp [validateWorkerDataAux, specDupCount]
  | cons w rest ih =>
      intro n seen
      rw [validateWorkerDataAux, List.filter_append, List.length_append,
        workerRow_filter_dup, ih]
      simp only [List.map_cons, specDupCount]
      by_cases h : w.WorkerID ∈ seen <;> simp [h]

/-- Same count for the task validator loop. -/
theorem taskAux_dup_count (allWorkerSkills : List String) :
    ∀ (ts : List ParsedTask) (n : Nat) (seen : List String),
      ((validateTaskDataAux allWorkerSkills n seen ts).filter (fun e => e.field == "TaskID")).length
        = specDupCount seen (ts.map (·.TaskID)) := by
  intro ts
  induction ts with
  | nil => intro n seen; simp [validateTaskDataAux, specDupCount]
  | cons t rest ih =>
      intro n seen
      rw [validateTaskDataAux, List.filter_append, List.length_append,
        taskRow_filter_dup, ih]
      simp only [List.map_cons, specDupCount]
      by_cases h : t.TaskID ∈ seen <;> simp [h]

/-! ### Field-property lemmas for duplicate diagnostics -/

/-- Every `ClientID`-field diagnostic of the client validator loop is an
error and not auto-fixable. -/
theorem clientAux_dup_props (taskIds : List String) :
    ∀ (cs : List ParsedClient) (n : Nat) (seen : List String),
      ∀ e ∈ validateClientDataAux taskIds n seen cs, e.field = "ClientID" →
        e.type = Severity.error ∧ e.autoFixAvailable = false := by
  intro cs
  induction cs with
  | nil => intro n seen e he; simp [validateClientDataAux] at he
  | cons c rest ih =>
      intro n seen e he hf
      rw [validateClientDataAux] at he
      rcases List.mem_append.mp he with h | h
      · unfold clientRowErrors at h
        rcases List.mem_append.mp h with h2 | h2
        · rcases List.mem_append.mp h2 with h3 | h3
          · by_cases hd : seen.contains c.ClientID
            · rw [if_pos hd] at h3
              rw [List.mem_singleton.mp h3]
              exact ⟨rfl, rfl⟩
            · rw [if_neg hd] at h3
              exact absurd h3 (List.not_mem_nil e)
          · by_cases hp : c.PriorityLevel < 1 ∨ c.PriorityLevel > 5
            · rw [if_pos hp] at h3
              rw [List.mem_singleton.mp h3] at hf
              exact absurd hf (by simp [mkClientPriorityError])
            · rw [if_neg hp] at h3
              exact absurd h3 (List.not_mem_nil e)
        · obtain ⟨q, _, he2⟩ := List.mem_filterMap.mp h2
          by_cases hq : taskIds.contains q.2
          · rw [if_pos hq] at he2
            exact absurd he2 (by simp)
          · rw [if_neg hq] at he2
            rw [← Option.some.inj he2] at hf
            exact absurd hf (by simp [mkClientTaskRefError])
      · exact ih n.succ (c.ClientID :: seen) e h hf

/-- Every `WorkerID`-field diagnostic of the worker validator loop is an
error and not auto-fixable. -/
theorem workerAux_dup_props :
    ∀ (ws : List ParsedWorker) (n : Nat) (seen : List String),
      ∀ e ∈ validateWorkerDataAux n seen ws, e.field = "WorkerID" →
        e.type = Severity.error ∧ e.autoFixAvailable = false := by
  intro ws
  induction ws with
  | nil => intro n seen e he; simp [validateWorkerDataAux] at he
  | cons w rest ih =>
      intro n seen e he hf
      rw [validateWorkerDataAux] at he
      rcases List.mem_append.mp he with h | h
      · unfold workerRowErrors at h
        rcases List.mem_append.mp h with h2 | h2
        · rcases List.mem_append.mp h2 with h3 | h3
          · rcases List.mem_append.mp h3 with h4 | h4
            · by_cases hd : seen.contains w.WorkerID
              · rw [if_pos hd] at h4
                rw [List.mem_singleton.mp h4]
                exact ⟨rfl, rfl⟩
              · rw [if_neg hd] at h4
                exact absurd h4 (List.not_mem_nil e)
            · by_cases hs : w.AvailableSlots.isEmpty
              · rw [if_pos hs] at h4
                rw [List.mem_singleton.mp h4] at hf
                exact absurd hf (by simp [mkWorkerSlotsError])
              · rw [if_neg hs] at h4
                exact absurd h4 (List.not_mem_nil e)
          · by_cases hl : w.MaxLoadPerPhase < 1
            · rw [if_pos hl] at h3
              rw [List.mem_singleton.mp h3] at hf
              exact absurd hf (by simp [mkWorkerLoadError])
            · rw [if_neg hl] at h3
              exact absurd h3 (List.not_mem_nil e)
        · by_cases ho : (w.AvailableSlots.length : Int) < w.MaxLoadPerPhase
          · rw [if_pos ho] at h2
            rw [List.mem_singleton.mp h2] at hf
            exact absurd hf (by simp [mkWorkerOverloadWarning])
          · rw [if_neg ho] at h2
            exact absurd h2 (List.not_mem_nil e)
      · exact ih n.succ (w.WorkerID :: seen) e h hf

/-- Every `TaskID`-field diagnostic of the task validator loop is an error
and not auto-fixable. -/
theorem taskAux_dup_props (allWorkerSkills : List String) :
    ∀ (ts : List ParsedTask) (n : Nat) (seen : List String),
      ∀ e ∈ validateTaskDataAux allWorkerSkills n seen ts, e.field = "TaskID" →
        e.type = Severity.error ∧ e.autoFixAvailable = false := by
  intro ts
  induction ts with
  | nil => intro n seen e he; simp [validateTaskDataAux] at he
  | cons t rest ih =>
      intro n seen e he hf
      rw [validateTaskDataAux] at he
      rcases List.mem_append.mp he with h | h
      · unfold taskRowErrors at h
        rcases List.mem_append.mp h with h2 | h2
        · rcases List.mem_append.mp h2 with h3 | h3
          · rcases List.mem_append.mp h3 with h4 | h4
            · by_cases hd : seen.contains t.TaskID
              · rw [if_pos hd] at h4
                rw [List.mem_singleton.mp h4]
                exact ⟨rfl, rfl⟩
              · rw [if_neg hd] at h4
                exact absurd h4 (List.not_mem_nil e)
            · by_cases hu : t.Duration < 1
              · rw [if_pos hu] at h4
                rw [List.mem_singleton.mp h4] at hf
                exact absurd hf (by simp [mkTaskDurationError])
              · rw [if_neg hu] at h4
                exact absurd h4 (List.not_mem_nil e)
          · by_cases hc : t.MaxConcurrent < 1
            · rw [if_pos hc] at h3
              rw [List.mem_singleton.mp h3] at hf
              exact absurd hf (by simp [mkTaskConcurrentError])
            · rw [if_neg hc] at h3
              exact absurd h3 (List.not_mem_nil e)
        · obtain ⟨q, _, he2⟩ := List.mem_filterMap.mp h2
          by_cases hq : allWorkerSkills.contains q.2
          · rw [if_pos hq] at he2
            exact absurd he2 (by simp)
          · rw [if_neg hq] at he2
            rw [← Option.some.inj he2] at hf
            exact absurd hf (by simp [mkTaskSkillError])
      · exact ih n.succ (t.TaskID :: seen) e h hf

/-- C4: a requester with priority in [1,5] gets no `PriorityLevel`
diagnostic; one with priority 0 or 6 gets exactly one, an auto-fixable error;
and both fix paths (the panel clamp and the service's
`getValidPriorityLevel`) always produce a value in [1,5]. -/
theorem c4_priority_range_and_fixes :
    (∀ (taskIds : List String) (i : Nat) (seen : List String) (c : ParsedClient),
      1 ≤ c.PriorityLevel → c.PriorityLevel ≤ 5 →
      (clientRowErrors taskIds i seen c).filter (fun e => e.field == "PriorityLevel") = []) ∧
    (∀ (taskIds : List String) (i : Nat) (seen : List String) (c : ParsedClient),
      c.PriorityLevel = 0 ∨ c.PriorityLevel = 6 →
      (clientRowErrors taskIds i seen c).filter (fun e => e.field == "PriorityLevel")
          = [mkClientPriorityError c i] ∧
        (mkClientPriorityError c i).type = Severity.error ∧
        (mkClientPriorityError c i).autoFixAvailable = true) ∧
    (∀ p : Int, 1 ≤ panelClampPriority p ∧ panelClampPriority p ≤ 5) ∧
    (∀ p : Int, 1 ≤ getValidPriorityLevel p ∧ getValidPriorityLevel p ≤ 5) := by
  refine ⟨?_, ?_, ?_, ?_⟩
  · intro taskIds i seen c h1 h5
    rw [clientRow_filter_priority]
    have h : ¬ (c.PriorityLevel < 1 ∨ c.PriorityLevel > 5) := by omega
    simp [h]
  · intro taskIds i seen c h
    rw [clientRow_filter_priority]
    have h2 : c.PriorityLevel < 1 ∨ c.PriorityLevel > 5 := by omega
    exact ⟨by simp [h2], rfl, rfl⟩
  · intro p
    unfold panelClampPriority
    exact ⟨le_max_left 1 _, max_le (by norm_num) (min_le_left 5 p)⟩
  · intro p
    unfold getValidPriorityLevel
    split_ifs <;> omega

/-- C4 witness: the theorem applied at priority 3 (no diagnostic), priority 6
(one auto-fixable error), and the two fix paths at 6 and 0. -/
theorem c4_priority_range_and_fixes_witness :
    (clientRowErrors [] 0 [] demoGoodClient).filter (fun e => e.field == "PriorityLevel") = [] ∧
    ((clientRowErrors [] 0 [] demoSixClient).filter (fun e => e.field == "PriorityLevel")
        = [mkClientPriorityError demoSixClient 0] ∧
      (mkClientPriorityError demoSixClient 0).type = Severity.error ∧
      (mkClientPriorityError demoSixClient 0).autoFixAvailable = true) ∧
    (1 ≤ panelClampPriority 6 ∧ panelClampPriority 6 ≤ 5) ∧
    (1 ≤ getValidPriorityLevel 0 ∧ getValidPriorityLevel 0 ≤ 5) :=
  ⟨c4_priority_range_and_fixes.1 [] 0 [] demoGoodClient (by decide) (by decide),
    c4_priority_range_and_fixes.2.1 [] 0 [] demoSixClient (Or.inr rfl),
    c4_priority_range_and_fixes.2.2.1 6,
    c4_priority_range_and_fixes.2.2.2 0⟩

/-- C6: in every collection the first occurrence of an ID is never flagged
and each later occurrence is flagged exactly once (the count of ID-field
diagnostics equals the later-occurrence count), and every such duplicate
diagnostic is an error with `autoFixAvailable = false`. -/
theorem c6_duplicate_ids_flagged_once :
    (∀ (clients : List ParsedClient) (tasks : List ParsedTask),
      ((validateClientData clients tasks).filter (fun e => e.field == "ClientID")).length
          = specDupCount [] (clients.map (·.ClientID)) ∧
        ∀ e ∈ validateClientData clients tasks, e.field = "ClientID" →
          e.type = Severity.error ∧ e.autoFixAvailable = false) ∧
    (∀ workers : List ParsedWorker,
      ((validateWorkerData workers).filter (fun e => e.field == "WorkerID")).length
          = specDupCount [] (workers.map (·.WorkerID)) ∧
        ∀ e ∈ validateWorkerData workers, e.field = "WorkerID" →
          e.type = Severity.error ∧ e.autoFixAvailable = false) ∧
    (∀ (tasks : List ParsedTask) (workers : List ParsedWorker),
      ((validateTaskData tasks workers).filter (fun e => e.field == "TaskID")).length
          = specDupCount [] (tasks.map (·.TaskID)) ∧
        ∀ e ∈ validateTaskData tasks workers, e.field = "TaskID" →
          e.type = Severity.error ∧ e.autoFixAvailable = false) := by
  refine ⟨fun clients tasks => ⟨?_, ?_⟩, fun workers => ⟨?_, ?_⟩,
    fun tasks workers => ⟨?_, ?_⟩⟩
  · unfold validateClientData
    exact clientAux_dup_count (tasks.map (·.TaskID)) clients 0 []
  · unfold validateClientData
    exact fun e he hf => clientAux_dup_props (tasks.map (·.TaskID)) clients 0 [] e he hf
  · unfold validateWorkerData
    exact workerAux_dup_count workers 0 []
  · unfold validateWorkerData
    exact fun e he hf => workerAux_dup_props workers 0 [] e he hf
  · unfold validateTaskData
    exact taskAux_dup_count (workers.flatMap (·.Skills)) tasks 0 []
  · unfold validateTaskData
    exact fun e he hf => taskAux_dup_props (workers.flatMap (·.Skills)) tasks 0 [] e he hf

/-- C6 witness: two requesters sharing "C1" yield exactly one duplicate
diagnostic (one later occurrence), an error, not auto-fixable. -/
theorem c6_duplicate_ids_flagged_once_witness :
    ((validateClientData demoDupClients []).filter (fun e => e.field == "ClientID")).length
        = specDupCount [] (demoDupClients.map (·.ClientID)) ∧
      (demoDupError.type = Severity.error ∧ demoDupError.autoFixAvailable = false) :=
  ⟨(c6_duplicate_ids_flagged_once.1 demoDupClients []).1,
    (c6_duplicate_ids_flagged_once.1 demoDupClients []).2 demoDupError (by decide) (by decide)⟩

/-- C9: normalization is per-row (a malformed row never disturbs the rest of
the batch: the normalizers are homomorphic over list append), an unparsable
`AttributesJSON` degrades to the empty map with all other fields intact, an
unparsable `AvailableSlots` degrades to the empty list with all other fields
intact, and `PreferredPhases` degrades to the empty list on each of its three
syntax paths when the cell is unparsable there. -/
theorem c9_normalizers_degrade :
    (∀ xs ys : List Client, parseClientData (xs ++ ys) = parseClientData xs ++ parseClientData ys) ∧
    (∀ xs ys : List Worker, parseWorkerData (xs ++ ys) = parseWorkerData xs ++ parseWorkerData ys) ∧
    (∀ xs ys : List Task, parseTaskData (xs ++ ys) = parseTaskData xs ++ parseTaskData ys) ∧
    (∀ c : Client, jsonParseObj c.AttributesJSON = none →
      (parseClient c).AttributesJSON = [] ∧ (parseClient c).ClientID = c.ClientID ∧
        (parseClient c).PriorityLevel = c.PriorityLevel ∧
        (parseClient c).RequestedTaskIDs = jsCommaSplitTrim c.RequestedTaskIDs) ∧
    (∀ w : Worker, jsonParseIntArray w.AvailableSlots = none →
      (parseWorker w).AvailableSlots = [] ∧ (parseWorker w).WorkerID = w.WorkerID ∧
        (parseWorker w).MaxLoadPerPhase = w.MaxLoadPerPhase ∧
        (parseWorker w).Skills = jsCommaSplitTrim w.Skills) ∧
    (∀ t : Task, t.PreferredPhases.toList.contains '-' = false →
      (t.PreferredPhases.toList.head? == some '[') = false →
      (∀ tok ∈ splitOnCharList ',' t.PreferredPhases.toList, jsParseIntL tok = none) →
      (parseTask t).PreferredPhases = []) ∧
    (∀ t : Task, t.PreferredPhases.toList.contains '-' = false →
      (t.PreferredPhases.toList.head? == some '[') = true →
      jsonParseIntArray t.PreferredPhases = none →
      (parseTask t).PreferredPhases = []) ∧
    (∀ t : Task, t.PreferredPhases.toList.contains '-' = true →
      (∀ a b rest, splitOnCharList '-' t.PreferredPhases.toList = a :: b :: rest →
        jsParseIntL a = none ∨ jsParseIntL b = none) →
      (parseTask t).PreferredPhases = []) := by
  refine ⟨?_, ?_, ?_, ?_, ?_, ?_, ?_, ?_⟩
  · intro xs ys
    unfold parseClientData
    exact List.map_append parseClient xs ys
  · intro xs ys
    unfold parseWorkerData
    exact List.map_append parseWorker xs ys
  · intro xs ys
    unfold parseTaskData
    exact List.map_append parseTask xs ys
  · intro c h
    unfold parseClient
    rw [h]
    exact ⟨rfl, rfl, rfl, rfl⟩
  · intro w h
    unfold parseWorker parseAvailableSlots
    rw [h]
    exact ⟨rfl, rfl, rfl, rfl⟩
  · intro t h1 h2 h3
    show parsePreferredPhases t.PreferredPhases = []
    unfold parsePreferredPhases
    rw [h1]
    simp only [Bool.false_eq_true, if_false]
    rw [h2]
    simp only [Bool.false_eq_true, if_false]
    rw [List.filterMap_eq_nil_iff]
    exact h3
  · intro t h1 h2 h3
    show parsePreferredPhases t.PreferredPhases = []
    unfold parsePreferredPhases
    rw [h1]
    simp only [Bool.false_eq_true, if_false]
    rw [h2]
    simp only [if_true]
    rw [h3]
    rfl
  · intro t h1 h3
    show parsePreferredPhases t.PreferredPhases = []
    unfold parsePreferredPhases
    rw [h1]
    simp only [if_true]
    rcases hsp : splitOnCharList '-' t.PreferredPhases.toList with _ | ⟨a, rest⟩
    · rfl
    · rcases rest with _ | ⟨b, rest2⟩
      · rfl
      · change (match jsParseIntL a, jsParseIntL b with
          | some start, some stop => rangeFromTo start stop
          | _, _ => ([] : List Int)) = []
        rcases ha : jsParseIntL a with _ | va
        · rfl
        · rcases h3 a b rest2 hsp with h | h
          · rw [h] at ha
            exact Option.noConfusion ha
          · rw [h]

/-- C9 witness: the degradation facts applied at concrete malformed cells
(`AttributesJSON = "not json"`, `AvailableSlots = "oops"`,
`PreferredPhases = "x,y"`, `"[1,x]"` and `"a-b"`), and batch independence at
a concrete split. -/
theorem c9_normalizers_degrade_witness :
    parseClientData ([mkClientRow "T1"] ++ [mkClientRow "a,,b"]) =
      parseClientData [mkClientRow "T1"] ++ parseClientData [mkClientRow "a,,b"] ∧
    (parseClient { mkClientRow "T1" with AttributesJSON := "not json" }).AttributesJSON = [] ∧
    (parseWorker (mkWorkerRow "oops")).AvailableSlots = [] ∧
    (parseTask (mkTaskRow "x,y")).PreferredPhases = [] ∧
    (parseTask (mkTaskRow "[1,x]")).PreferredPhases = [] ∧
    (parseTask (mkTaskRow "a-b")).PreferredPhases = [] :=
  ⟨c9_normalizers_degrade.1 [mkClientRow "T1"] [mkClientRow "a,,b"],
    (c9_normalizers_degrade.2.2.2.1 { mkClientRow "T1" with AttributesJSON := "not json" }
      (by decide)).1,
    (c9_normalizers_degrade.2.2.2.2.1 (mkWorkerRow "oops") (by decide)).1,
    c9_normalizers_degrade.2.2.2.2.2.1 (mkTaskRow "x,y") (by decide) (by decide) (by decide),
    c9_normalizers_degrade.2.2.2.2.2.2.1 (mkTaskRow "[1,x]") (by decide) (by decide) (by decide),
    c9_normalizers_degrade.2.2.2.2.2.2.2 (mkTaskRow "a-b") (by decide)
      (fun a b rest hsp => by
        have he : splitOnCharList '-' ((mkTaskRow "a-b").PreferredPhases.toList)
            = [['a'], ['b']] := by decide
        rw [he] at hsp
        injection hsp with ha2 htail
        subst ha2
        exact Or.inl (by decide))⟩

/-! ### Frame lemmas for C10 -/

/-- A pointwise property of a map yields a `Forall₂` between a list and its
image. -/
theorem forall2_map_right {α β : Type} {R : α → β → Prop} (l : List α) (g : α → β)
    (h : ∀ x ∈ l, R x (g x)) : List.Forall₂ R l (l.map g) := by
  induction l with
  | nil => exact List.Forall₂.nil
  | cons a rest ih =>
      exact List.Forall₂.cons (h a (List.mem_cons_self a rest))
        (ih (fun x hx => h x (List.mem_cons_of_mem a hx)))

/-- A pointwise reflexive property yields a `Forall₂` between a list and
itself. -/
theorem forall2_refl_of {α : Type} {R : α → α → Prop} (l : List α)
    (h : ∀ x ∈ l, R x x) : List.Forall₂ R l l := by
  induction l with
  | nil => exact List.Forall₂.nil
  | cons a rest ih =>
      exact List.Forall₂.cons (h a (List.mem_cons_self a rest))
        (ih (fun x hx => h x (List.mem_cons_of_mem a hx)))

/-- An untouched client record satisfies its frame relation provided the
fix clause cannot fire (or would be the identity). -/
theorem clientFrame_refl (e : ValidationError) (f : Int → Int) (old : ParsedClient)
    (h : e.field = "PriorityLevel" → e.entity = EntityKind.client → old.ClientID = e.entityId →
      f old.PriorityLevel = old.PriorityLevel) :
    clientFrame e f old old :=
  ⟨fun _ => rfl, fun _ => rfl, fun _ => rfl, rfl, rfl, rfl, rfl, rfl,
    fun hf he hid => (h hf he hid).symm⟩

/-- The client rewrite of the priority branch satisfies the frame relation. -/
theorem clientFrame_update (e : ValidationError) (f : Int → Int) (old : ParsedClient)
    (hf : e.field = "PriorityLevel") (he : e.entity = EntityKind.client) :
    clientFrame e f old
      (if old.ClientID = e.entityId then { old with PriorityLevel := f old.PriorityLevel }
       else old) := by
  by_cases hid : old.ClientID = e.entityId
  · rw [if_pos hid]
    exact ⟨fun hne => absurd he hne, fun hne => absurd hid hne, fun hne => absurd hf hne,
      rfl, rfl, rfl, rfl, rfl, fun _ _ _ => rfl⟩
  · rw [if_neg hid]
    exact clientFrame_refl e f old (fun _ _ hid2 => absurd hid2 hid)

/-- An untouched worker record satisfies its frame relation provided neither
fix clause can fire (or each would be the identity). -/
theorem workerFrame_refl (e : ValidationError) (lf : Int → Int)
    (sf : List String → List String) (old : ParsedWorker)
    (hL : e.field = "MaxLoadPerPhase" → e.entity = EntityKind.worker →
      old.WorkerID = e.entityId → lf old.MaxLoadPerPhase = old.MaxLoadPerPhase)
    (hS : e.field = "Skills" → e.entity = EntityKind.worker → old.WorkerID = e.entityId →
      sf old.Skills = old.Skills) :
    workerFrame e lf sf old old :=
  ⟨fun _ => rfl, fun _ => rfl, fun _ _ => rfl, rfl, rfl, rfl, rfl, rfl,
    fun _ => rfl, fun _ => rfl,
    fun hf he hid => (hL hf he hid).symm, fun hf he hid => (hS hf he hid).symm⟩

/-- The worker rewrite of the max-load branch satisfies the frame relation. -/
theorem workerFrame_update_load (e : ValidationError) (lf : Int → Int)
    (sf : List String → List String) (old : ParsedWorker)
    (hf : e.field = "MaxLoadPerPhase") (he : e.entity = EntityKind.worker) :
    workerFrame e lf sf old
      (if old.WorkerID = e.entityId then { old with MaxLoadPerPhase := lf old.MaxLoadPerPhase }
       else old) := by
  have hnotS : e.field = "Skills" → False := fun h2 => by
    rw [hf] at h2
    exact absurd h2 (by decide)
  by_cases hid : old.WorkerID = e.entityId
  · rw [if_pos hid]
    exact ⟨fun hne => absurd he hne, fun hne => absurd hid hne, fun hne _ => absurd hf hne,
      rfl, rfl, rfl, rfl, rfl, fun hne => absurd hf hne, fun _ => rfl,
      fun _ _ _ => rfl, fun h2 _ _ => absurd (hnotS h2) not_false⟩
  · rw [if_neg hid]
    exact workerFrame_refl e lf sf old (fun _ _ hid2 => absurd hid2 hid)
      (fun h2 _ _ => absurd (hnotS h2) not_false)

/-- The worker rewrite of the skills branch satisfies the frame relation. -/
theorem workerFrame_update_skills (e : ValidationError) (lf : Int → Int)
    (sf : List String → List String) (old : ParsedWorker)
    (hf : e.field = "Skills") (he : e.entity = EntityKind.worker) :
    workerFrame e lf sf old
      (if old.WorkerID = e.entityId then { old with Skills := sf old.Skills } else old) := by
  have hnotL : e.field = "MaxLoadPerPhase" → False := fun h2 => by
    rw [hf] at h2
    exact absurd h2 (by decide)
  by_cases hid : old.WorkerID = e.entityId
  · rw [if_pos hid]
    exact ⟨fun hne => absurd he hne, fun hne => absurd hid hne, fun _ hne => absurd hf hne,
      rfl, rfl, rfl, rfl, rfl, fun _ => rfl, fun hne => absurd hf hne,
      fun h2 _ _ => absurd (hnotL h2) not_false, fun _ _ _ => rfl⟩
  · rw [if_neg hid]
    exact workerFrame_refl e lf sf old (fun h2 _ _ => absurd (hnotL h2) not_false)
      (fun _ _ hid2 => absurd hid2 hid)

/-- An untouched task record satisfies its frame relation provided neither
fix clause can fire (or each would be the identity). -/
theorem taskFrame_refl (e : ValidationError) (df : Int → Int)
    (rf : List String → List String) (old : ParsedTask)
    (hD : e.field = "Duration" → e.entity = EntityKind.task → old.TaskID = e.entityId →
      df old.Duration = old.Duration)
    (hR : e.field = "RequiredSkills" → e.entity = EntityKind.task → old.TaskID = e.entityId →
      rf old.RequiredSkills = old.RequiredSkills) :
    taskFrame e df rf old old :=
  ⟨fun _ => rfl, fun _ => rfl, fun _ _ => rfl, rfl, rfl, rfl, rfl, rfl,
    fun _ => rfl, fun _ => rfl,
    fun hf he hid => (hD hf he hid).symm, fun hf he hid => (hR hf he hid).symm⟩

/-- The task rewrite of the duration branch satisfies the frame relation. -/
theorem taskFrame_update_duration (e : ValidationError) (df : Int → Int)
    (rf : List String → List String) (old : ParsedTask)
    (hf : e.field = "Duration") (he : e.entity = EntityKind.task) :
    taskFrame e df rf old
      (if old.TaskID = e.entityId then { old with Duration := df old.Duration } else old) := by
  have hnotR : e.field = "RequiredSkills" → False := fun h2 => by
    rw [hf] at h2
    exact absurd h2 (by decide)
  by_cases hid : old.TaskID = e.entityId
  · rw [if_pos hid]
    exact ⟨fun hne => absurd he hne, fun hne => absurd hid hne, fun hne _ => absurd hf hne,
      rfl, rfl, rfl, rfl, rfl, fun hne => absurd hf hne, fun _ => rfl,
      fun _ _ _ => rfl, fun h2 _ _ => absurd (hnotR h2) not_false⟩
  · rw [if_neg hid]
    exact taskFrame_refl e df rf old (fun _ _ hid2 => absurd hid2 hid)
      (fun h2 _ _ => absurd (hnotR h2) not_false)

/-- The task rewrite of the required-skills branch satisfies the frame
relation. -/
theorem taskFrame_update_reqskills (e : ValidationError) (df : Int → Int)
    (rf : List String → List String) (old : ParsedTask)
    (hf : e.field = "RequiredSkills") (he : e.entity = EntityKind.task) :
    taskFrame e df rf old
      (if old.TaskID = e.entityId then { old with RequiredSkills := rf old.RequiredSkills }
       else old) := by
  have hnotD : e.field = "Duration" → False := fun h2 => by
    rw [hf] at h2
    exact absurd h2 (by decide)
  by_cases hid : old.TaskID = e.entityId
  · rw [if_pos hid]
    exact ⟨fun hne => absurd he hne, fun hne => absurd hid hne, fun _ hne => absurd hf hne,
      rfl, rfl, rfl, rfl, rfl, fun _ => rfl, fun hne => absurd hf hne,
      fun h2 _ _ => absurd (hnotD h2) not_false, fun _ _ _ => rfl⟩
  · rw [if_neg hid]
    exact taskFrame_refl e df rf old (fun h2 _ _ => absurd (hnotD h2) not_false)
      (fun _ _ hid2 => absurd hid2 hid)

/-- The clients component of `applyFix`: rewritten only by the
priority/client branch. -/
theorem applyFix_clients (e : ValidationError) (ds : DataState) :
    (applyFix e ds).clients =
      if e.field = "PriorityLevel" ∧ e.entity = EntityKind.client then
        ds.clients.map (fun c =>
          if c.ClientID = e.entityId then
            { c with PriorityLevel := getValidPriorityLevel c.PriorityLevel } else c)
      else ds.clients := by
  unfold applyFix
  split_ifs <;> rfl

/-- The workers component of `applyFix`: rewritten only by the max-load or
skills worker branches. -/
theorem applyFix_workers (e : ValidationError) (ds : DataState) :
    (applyFix e ds).workers =
      if e.field = "MaxLoadPerPhase" ∧ e.entity = EntityKind.worker then
        ds.workers.map (fun w =>
          if w.WorkerID = e.entityId then
            { w with MaxLoadPerPhase := max 1 w.MaxLoadPerPhase } else w)
      else if e.field = "Skills" ∧ e.entity = EntityKind.worker then
        ds.workers.map (fun w =>
          if w.WorkerID = e.entityId then { w with Skills := getDefaultSkills w.Skills } else w)
      else ds.workers := by
  unfold applyFix
  split_ifs <;> first | rfl | simp_all

/-- The tasks component of `applyFix`: rewritten only by the duration or
required-skills task branches. -/
theorem applyFix_tasks (e : ValidationError) (ds : DataState) :
    (applyFix e ds).tasks =
      if e.field = "Duration" ∧ e.entity = EntityKind.task then
        ds.tasks.map (fun t =>
          if t.TaskID = e.entityId then { t with Duration := max 1 t.Duration } else t)
      else if e.field = "RequiredSkills" ∧ e.entity = EntityKind.task then
        ds.tasks.map (fun t =>
          if t.TaskID = e.entityId then
            { t with RequiredSkills := getDefaultRequiredSkills t.RequiredSkills ds.workers }
          else t)
      else ds.tasks := by
  unfold applyFix
  split_ifs <;> first | rfl | simp_all

/-- The clients component of the panel's `autoFixError` when the error is
auto-fixable. -/
theorem autoFix_clients (e : ValidationError) (ds : DataState)
    (hA : e.autoFixAvailable = true) :
    (autoFixError e ds).clients =
      if e.field = "PriorityLevel" ∧ e.entity = EntityKind.client then
        ds.clients.map (fun c =>
          if c.ClientID = e.entityId then
            { c with PriorityLevel := panelClampPriority c.PriorityLevel } else c)
      else ds.clients := by
  simp only [autoFixError, hA, Bool.true_eq_false, if_false]
  split_ifs <;> rfl

/-- The workers component of the panel's `autoFixError` when the error is
auto-fixable. -/
theorem autoFix_workers (e : ValidationError) (ds : DataState)
    (hA : e.autoFixAvailable = true) :
    (autoFixError e ds).workers =
      if e.field = "MaxLoadPerPhase" ∧ e.entity = EntityKind.worker then
        ds.workers.map (fun w =>
          if w.WorkerID = e.entityId then
            { w with MaxLoadPerPhase := max 1 w.MaxLoadPerPhase } else w)
      else ds.workers := by
  simp only [autoFixError, hA, Bool.true_eq_false, if_false]
  split_ifs <;> rfl

/-- The tasks component of the panel's `autoFixError` when the error is
auto-fixable. -/
theorem autoFix_tasks (e : ValidationError) (ds : DataState)
    (hA : e.autoFixAvailable = true) :
    (autoFixError e ds).tasks =
      if e.field = "Duration" ∧ e.entity = EntityKind.task then
        ds.tasks.map (fun t =>
          if t.TaskID = e.entityId then { t with Duration := max 1 t.Duration } else t)
      else ds.tasks := by
  simp only [autoFixError, hA, Bool.true_eq_false, if_false]
  split_ifs <;> rfl

/-- `autoFixError` on a non-auto-fixable error returns the state unchanged. -/
theorem autoFixError_unavailable (e : ValidationError) (ds : DataState)
    (hA : e.autoFixAvailable = false) : autoFixError e ds = ds := by
  unfold autoFixError
  rw [if_pos hA]

/-- C10: frame property of fix application.  On both fix paths (the service's
`applyFix` and the panel's `autoFixError`), every record whose ID matches the
diagnostic's `entityId` — all duplicates at once — has exactly the targeted
field rewritten by the branch's fix function, every other field and every
non-matching record is unchanged, and collections other than the targeted
entity's are unchanged; a non-auto-fixable error leaves the panel state
untouched. -/
theorem c10_fix_frame :
    ∀ (e : ValidationError) (ds : DataState),
      List.Forall₂ (clientFrame e getValidPriorityLevel) ds.clients (applyFix e ds).clients ∧
      List.Forall₂ (workerFrame e (fun v => max 1 v) getDefaultSkills) ds.workers
        (applyFix e ds).workers ∧
      List.Forall₂ (taskFrame e (fun v => max 1 v)
        (fun rs => getDefaultRequiredSkills rs ds.workers)) ds.tasks (applyFix e ds).tasks ∧
      (e.autoFixAvailable = true →
        List.Forall₂ (clientFrame e panelClampPriority) ds.clients (autoFixError e ds).clients ∧
        List.Forall₂ (workerFrame e (fun v => max 1 v) (fun s => s)) ds.workers
          (autoFixError e ds).workers ∧
        List.Forall₂ (taskFrame e (fun v => max 1 v) (fun rs => rs)) ds.tasks
          (autoFixError e ds).tasks) ∧
      (e.autoFixAvailable = false → autoFixError e ds = ds) := by
  intro e ds
  refine ⟨?_, ?_, ?_, fun hA => ⟨?_, ?_, ?_⟩, fun hA => autoFixError_unavailable e ds hA⟩
  · rw [applyFix_clients]
    by_cases h1 : e.field = "PriorityLevel" ∧ e.entity = EntityKind.client
    · rw [if_pos h1]
      exact forall2_map_right _ _ (fun c _ => clientFrame_update e _ c h1.1 h1.2)
    · rw [if_neg h1]
      exact forall2_refl_of _
        (fun c _ => clientFrame_refl e _ c (fun hf he _ => absurd ⟨hf, he⟩ h1))
  · rw [applyFix_workers]
    by_cases h3 : e.field = "MaxLoadPerPhase" ∧ e.entity = EntityKind.worker
    · rw [if_pos h3]
      exact forall2_map_right _ _ (fun w _ => workerFrame_update_load e _ _ w h3.1 h3.2)
    · rw [if_neg h3]
      by_cases h4 : e.field = "Skills" ∧ e.entity = EntityKind.worker
      · rw [if_pos h4]
        exact forall2_map_right _ _ (fun w _ => workerFrame_update_skills e _ _ w h4.1 h4.2)
      · rw [if_neg h4]
        exact forall2_refl_of _ (fun w _ => workerFrame_refl e _ _ w
          (fun hf he _ => absurd ⟨hf, he⟩ h3) (fun hf he _ => absurd ⟨hf, he⟩ h4))
  · rw [applyFix_tasks]
    by_cases h2 : e.field = "Duration" ∧ e.entity = EntityKind.task
    · rw [if_pos h2]
      exact forall2_map_right _ _ (fun t _ => taskFrame_update_duration e _ _ t h2.1 h2.2)
    · rw [if_neg h2]
      by_cases h5 : e.field = "RequiredSkills" ∧ e.entity = EntityKind.task
      · rw [if_pos h5]
        exact forall2_map_right _ _ (fun t _ => taskFrame_update_reqskills e _ _ t h5.1 h5.2)
      · rw [if_neg h5]
        exact forall2_refl_of _ (fun t _ => taskFrame_refl e _ _ t
          (fun hf he _ => absurd ⟨hf, he⟩ h2) (fun hf he _ => absurd ⟨hf, he⟩ h5))
  · rw [autoFix_clients e ds hA]
    by_cases h1 : e.field = "PriorityLevel" ∧ e.entity = EntityKind.client
    · rw [if_pos h1]
      exact forall2_map_right _ _ (fun c _ => clientFrame_update e _ c h1.1 h1.2)
    · rw [if_neg h1]
      exact forall2_refl_of _
        (fun c _ => clientFrame_refl e _ c (fun hf he _ => absurd ⟨hf, he⟩ h1))
  · rw [autoFix_workers e ds hA]
    by_cases h3 : e.field = "MaxLoadPerPhase" ∧ e.entity = EntityKind.worker
    · rw [if_pos h3]
      exact forall2_map_right _ _ (fun w _ => workerFrame_update_load e _ _ w h3.1 h3.2)
    · rw [if_neg h3]
      exact forall2_refl_of _ (fun w _ => workerFrame_refl e _ _ w
        (fun hf he _ => absurd ⟨hf, he⟩ h3) (fun _ _ _ => rfl))
  · rw [autoFix_tasks e ds hA]
    by_cases h2 : e.field = "Duration" ∧ e.entity = EntityKind.task
    · rw [if_pos h2]
      exact forall2_map_right _ _ (fun t _ => taskFrame_update_duration e _ _ t h2.1 h2.2)
    · rw [if_neg h2]
      exact forall2_refl_of _ (fun t _ => taskFrame_refl e _ _ t
        (fun hf he _ => absurd ⟨hf, he⟩ h2) (fun _ _ _ => rfl))

/-- C10 witness: the frame property instantiated at the concrete priority
diagnostic of the priority-6 requester over a concrete state. -/
theorem c10_fix_frame_witness :
    List.Forall₂ (clientFrame (mkClientPriorityError demoSixClient 0) getValidPriorityLevel)
      demoWarningState.clients
      (applyFix (mkClientPriorityError demoSixClient 0) demoWarningState).clients ∧
    List.Forall₂ (workerFrame (mkClientPriorityError demoSixClient 0)
      (fun v => max 1 v) getDefaultSkills) demoWarningState.workers
      (applyFix (mkClientPriorityError demoSixClient 0) demoWarningState).workers ∧
    List.Forall₂ (taskFrame (mkClientPriorityError demoSixClient 0) (fun v => max 1 v)
      (fun rs => getDefaultRequiredSkills rs demoWarningState.workers)) demoWarningState.tasks
      (applyFix (mkClientPriorityError demoSixClient 0) demoWarningState).tasks ∧
    ((mkClientPriorityError demoSixClient 0).autoFixAvailable = true →
      List.Forall₂ (clientFrame (mkClientPriorityError demoSixClient 0) panelClampPriority)
        demoWarningState.clients
        (autoFixError (mkClientPriorityError demoSixClient 0) demoWarningState).clients ∧
      List.Forall₂ (workerFrame (mkClientPriorityError demoSixClient 0)
        (fun v => max 1 v) (fun s => s)) demoWarningState.workers
        (autoFixError (mkClientPriorityError demoSixClient 0) demoWarningState).workers ∧
      List.Forall₂ (taskFrame (mkClientPriorityError demoSixClient 0)
        (fun v => max 1 v) (fun rs => rs)) demoWarningState.tasks
        (autoFixError (mkClientPriorityError demoSixClient 0) demoWarningState).tasks) ∧
    ((mkClientPriorityError demoSixClient 0).autoFixAvailable = false →
      autoFixError (mkClientPriorityError demoSixClient 0) demoWarningState = demoWarningState) :=
  c10_fix_frame (mkClientPriorityError demoSixClient 0) demoWarningState

/-! ### Association-map lemmas for the cross-reference analyzer -/

/-- `dedupFirst` preserves membership. -/
theorem mem_dedupFirst (l : List Int) (x : Int) : x ∈ dedupFirst l ↔ x ∈ l := by
  induction l using dedupFirst.induct with
  | case1 => simp [dedupFirst]
  | case2 y ys ih =>
      rw [dedupFirst]
      simp only [List.mem_cons, ih, List.mem_filter]
      constructor
      · rintro (rfl | ⟨h, _⟩)
        · exact Or.inl rfl
        · exact Or.inr h
      · rintro (rfl | h)
        · exact Or.inl rfl
        · by_cases hx : x = y
          · exact Or.inl hx
          · exact Or.inr ⟨h, by simp [hx]⟩

/-- `dedupFirst` produces a duplicate-free list. -/
theorem nodup_dedupFirst (l : List Int) : (dedupFirst l).Nodup := by
  induction l using dedupFirst.induct with
  | case1 => simp [dedupFirst]
  | case2 y ys ih =>
      rw [dedupFirst, List.nodup_cons]
      refine ⟨fun hy => ?_, ih⟩
      rw [mem_dedupFirst, List.mem_filter] at hy
      simp at hy

/-- Appending one element either leaves the first-occurrence list unchanged
(element already present) or appends it. -/
theorem dedupFirst_snoc (K : List Int) :
    ∀ k, dedupFirst (K ++ [k]) = if k ∈ K then dedupFirst K else dedupFirst K ++ [k] := by
  induction K using dedupFirst.induct with
  | case1 =>
      intro k
      simp [dedupFirst]
  | case2 y ys ih =>
      intro k
      rw [List.cons_append, dedupFirst, List.filter_append]
      by_cases hky : k = y
      · subst hky
        simp only [List.filter_cons, List.filter_nil, bne_self_eq_false, Bool.false_eq_true,
          ite_false, List.append_nil]
        rw [if_pos (List.mem_cons_self k ys), dedupFirst]
      · have hfil : List.filter (fun y2 => y2 != y) [k] = [k] := by simp [bne, hky]
        rw [hfil, ih k]
        by_cases hmem : k ∈ ys.filter (fun y2 => y2 != y)
        · rw [if_pos hmem]
          have : k ∈ y :: ys := by
            rcases List.mem_filter.mp hmem with ⟨h, _⟩
            exact List.mem_cons_of_mem y h
          rw [if_pos this, dedupFirst]
        · rw [if_neg hmem]
          have : k ∉ y :: ys := by
            intro hc
            rcases List.mem_cons.mp hc with h | h
            · exact hky h
            · exact hmem (List.mem_filter.mpr ⟨h, by simp [bne, hky]⟩)
          rw [if_neg this, dedupFirst, List.cons_append]

/-- `lookupAssoc` over a keyed image list returns the tabulated value of the
first matching key. -/
theorem lookup_map_pairing (f : Int → Int) :
    ∀ (l : List Int) (k : Int),
      lookupAssoc (l.map (fun x => (x, f x))) k = if k ∈ l then some (f k) else none := by
  intro l
  induction l with
  | nil => intro k; simp [lookupAssoc]
  | cons x xs ih =>
      intro k
      rw [List.map_cons, lookupAssoc]
      by_cases h : x = k
      · subst h
        rw [if_pos rfl, if_pos (List.mem_cons_self x xs)]
      · rw [if_neg h, ih k]
        by_cases hm : k ∈ xs
        · rw [if_pos hm, if_pos (List.mem_cons_of_mem x hm)]
        · rw [if_neg hm, if_neg (fun hc => by
            rcases List.mem_cons.mp hc with h2 | h2
            · exact h h2.symm
            · exact hm h2)]

/-- `bumpAssoc` on a tabulated list with a present, unduplicated key updates
that key's value in place. -/
theorem bump_map_mem (f : Int → Int) :
    ∀ (l : List Int), l.Nodup → ∀ (k v : Int), k ∈ l →
      bumpAssoc (l.map (fun x => (x, f x))) k v
        = l.map (fun x => (x, if x = k then f x + v else f x)) := by
  intro l
  induction l with
  | nil => intro _ k v hk; exact absurd hk (List.not_mem_nil k)
  | cons x xs ih =>
      intro hnd k v hk
      rw [List.map_cons, List.map_cons, bumpAssoc]
      rcases List.nodup_cons.mp hnd with ⟨hx, hnd2⟩
      by_cases h : x = k
      · rw [if_pos h, if_pos h]
        subst h
        congr 1
        apply List.map_congr_left
        intro y hy
        have : y ≠ x := fun hyx => hx (hyx ▸ hy)
        rw [if_neg this]
      · rw [if_neg h, if_neg h]
        have hk2 : k ∈ xs := by
          rcases List.mem_cons.mp hk with h2 | h2
          · exact absurd h2.symm h
          · exact h2
        rw [ih hnd2 k v hk2]

/-- `bumpAssoc` with an absent key appends the new entry. -/
theorem bump_map_not_mem (f : Int → Int) :
    ∀ (l : List Int) (k v : Int), k ∉ l →
      bumpAssoc (l.map (fun x => (x, f x))) k v = l.map (fun x => (x, f x)) ++ [(k, v)] := by
  intro l
  induction l with
  | nil => intro k v _; rfl
  | cons x xs ih =>
      intro k v hk
      rw [List.map_cons, bumpAssoc,
        if_neg (fun h => hk (by rw [← h]; exact List.mem_cons_self x xs)),
        ih k v (fun h => hk (List.mem_cons_of_mem x h))]
      rfl

/-- `weightOf` distributes over append. -/
theorem weightOf_append (xs ys : List (Int × Int)) (k : Int) :
    weightOf (xs ++ ys) k = weightOf xs k + weightOf ys k := by
  unfold weightOf
  rw [List.filter_append, List.map_append, List.sum_append]

/-- `weightOf` of a head entry. -/
theorem weightOf_cons (a b k : Int) (xs : List (Int × Int)) :
    weightOf ((a, b) :: xs) k = (if a = k then b else 0) + weightOf xs k := by
  unfold weightOf
  rw [List.filter_cons]
  by_cases h : a = k
  · simp [h]
  · simp [h]

/-- A key absent from a pair list carries weight 0. -/
theorem weightOf_not_mem (pairs : List (Int × Int)) (k : Int)
    (h : k ∉ pairs.map (·.1)) : weightOf pairs k = 0 := by
  unfold weightOf
  rw [List.filter_eq_nil_iff.mpr]
  · rfl
  · intro pv hpv
    simp only [beq_iff_eq]
    exact fun hc => h (hc ▸ List.mem_map_of_mem (·.1) hpv)

/-- One step of the accumulation map. -/
theorem buildMap_snoc (pairs : List (Int × Int)) (k v : Int) :
    buildMap (pairs ++ [(k, v)]) = bumpAssoc (buildMap pairs) k v := by
  unfold buildMap
  rw [List.foldl_append]
  rfl

/-- The accumulation map tabulates `weightOf` over the first occurrences of
the keys, in first-occurrence order — the central invariant of the
`Map`-based supply/demand computation. -/
theorem buildMap_eq :
    ∀ pairs : List (Int × Int),
      buildMap pairs = (dedupFirst (pairs.map (·.1))).map (fun k => (k, weightOf pairs k)) := by
  intro pairs
  induction pairs using List.reverseRecOn with
  | nil => simp [buildMap, dedupFirst]
  | append_singleton pairs pv ih =>
      obtain ⟨k, v⟩ := pv
      rw [buildMap_snoc, ih,
        show (pairs ++ [(k, v)]).map (·.1) = pairs.map (·.1) ++ [k] by simp,
        dedupFirst_snoc]
      by_cases hk : k ∈ pairs.map (·.1)
      · rw [if_pos hk,
          bump_map_mem _ _ (nodup_dedupFirst _) k v ((mem_dedupFirst _ _).mpr hk)]
        apply List.map_congr_left
        intro x hx
        rw [weightOf_append, weightOf_cons]
        by_cases hxk : x = k
        · rw [if_pos hxk, if_pos hxk.symm]
          simp [weightOf]
        · rw [if_neg hxk, if_neg (fun h => hxk h.symm)]
          simp [weightOf]
      · rw [if_neg hk, bump_map_not_mem _ _ k v (fun h => hk ((mem_dedupFirst _ _).mp h)),
          List.map_append]
        congr 1
        · apply List.map_congr_left
          intro x hx
          have hx2 : x ∈ pairs.map (·.1) := (mem_dedupFirst _ _).mp hx
          have hxk : x ≠ k := fun h => hk (h ▸ hx2)
          rw [weightOf_append, weightOf_cons, if_neg (fun h => hxk h.symm)]
          simp [weightOf]
        · rw [List.map_singleton, weightOf_append, weightOf_cons, if_pos rfl,
            weightOf_not_mem pairs k hk]
          simp [weightOf]

/-- The nested worker/slot fold of `phaseSlotMap` is the flat fold over the
occurrence pairs. -/
theorem phaseSlotMap_eq (workers : List ParsedWorker) :
    phaseSlotMap workers = buildMap (supplyPairs workers) := by
  suffices aux : ∀ (ws : List ParsedWorker) (al : List (Int × Int)),
      ws.foldl (fun al2 w =>
          w.AvailableSlots.foldl (fun al3 phase => bumpAssoc al3 phase w.MaxLoadPerPhase) al2) al
        = (supplyPairs ws).foldl (fun al2 pv => bumpAssoc al2 pv.1 pv.2) al by
    exact aux workers []
  intro ws
  induction ws with
  | nil => intro al; rfl
  | cons w rest ih =>
      intro al
      rw [show supplyPairs (w :: rest)
            = w.AvailableSlots.map (fun p => (p, w.MaxLoadPerPhase)) ++ supplyPairs rest
          from rfl,
        List.foldl_append, List.foldl_map, List.foldl_cons]
      exact ih _

/-- The nested task/phase fold of `phaseDemandMap` is the flat fold over the
occurrence pairs. -/
theorem phaseDemandMap_eq (tasks : List ParsedTask) :
    phaseDemandMap tasks = buildMap (demandPairs tasks) := by
  suffices aux : ∀ (ts : List ParsedTask) (al : List (Int × Int)),
      ts.foldl (fun al2 t =>
          t.PreferredPhases.foldl (fun al3 phase => bumpAssoc al3 phase t.Duration) al2) al
        = (demandPairs ts).foldl (fun al2 pv => bumpAssoc al2 pv.1 pv.2) al by
    exact aux tasks []
  intro ts
  induction ts with
  | nil => intro al; rfl
  | cons t rest ih =>
      intro al
      rw [show demandPairs (t :: rest)
            = t.PreferredPhases.map (fun p => (p, t.Duration)) ++ demandPairs rest
          from rfl,
        List.foldl_append, List.foldl_map, List.foldl_cons]
      exact ih _

/-- Weight of a constant-valued pairing: occurrence count times the value. -/
theorem weight_const_pairs (slots : List Int) (load n : Int) :
    weightOf (slots.map (fun p => (p, load))) n = (slots.count n : Int) * load := by
  induction slots with
  | nil => simp [weightOf]
  | cons p rest ih =>
      rw [List.map_cons, weightOf_cons, ih, List.count_cons]
      by_cases h : p = n
      · simp [h]
        ring
      · simp [h]

/-- The occurrence-weighted supply sum. -/
theorem weight_supplyPairs (workers : List ParsedWorker) (n : Int) :
    weightOf (supplyPairs workers) n = specSupply workers n := by
  induction workers with
  | nil => rfl
  | cons w rest ih =>
      rw [show supplyPairs (w :: rest)
            = w.AvailableSlots.map (fun p => (p, w.MaxLoadPerPhase)) ++ supplyPairs rest
          from rfl,
        weightOf_append, ih, weight_const_pairs]
      rfl

/-- The occurrence-weighted demand sum. -/
theorem weight_demandPairs (tasks : List ParsedTask) (n : Int) :
    weightOf (demandPairs tasks) n = specDemand tasks n := by
  induction tasks with
  | nil => rfl
  | cons t rest ih =>
      rw [show demandPairs (t :: rest)
            = t.PreferredPhases.map (fun p => (p, t.Duration)) ++ demandPairs rest
          from rfl,
        weightOf_append, ih, weight_const_pairs]
      rfl

/-- `map.get(k) || 0` over the accumulation map is exactly the weight. -/
theorem lookup_buildMap_getD (pairs : List (Int × Int)) (k : Int) :
    (lookupAssoc (buildMap pairs) k).getD 0 = weightOf pairs k := by
  rw [buildMap_eq, lookup_map_pairing]
  by_cases h : k ∈ dedupFirst (pairs.map (·.1))
  · rw [if_pos h]
    rfl
  · rw [if_neg h]
    exact (weightOf_not_mem pairs k (fun hm => h ((mem_dedupFirst _ _).mpr hm))).symm

/-- The keys of the demand pairs are the preferred-phase occurrences. -/
theorem demandPairs_fst (tasks : List ParsedTask) :
    (demandPairs tasks).map (·.1) = tasks.flatMap (·.PreferredPhases) := by
  induction tasks with
  | nil => rfl
  | cons t rest ih =>
      rw [show demandPairs (t :: rest)
            = t.PreferredPhases.map (fun p => (p, t.Duration)) ++ demandPairs rest
          from rfl,
        List.map_append, ih, List.map_map,
        show (t :: rest).flatMap (·.PreferredPhases)
            = t.PreferredPhases ++ rest.flatMap (·.PreferredPhases) from rfl]
      congr 1
      exact List.map_id t.PreferredPhases

/-- C7 (counterexample): with one provider listing phase 1 twice in
`AvailableSlots` (`[1, 1]`, `MaxLoadPerPhase = 2`) and one work unit
preferring phase 1 with duration 3, the claim's per-provider supply is 2
(the one provider whose slots contain phase 1 contributes its
`MaxLoadPerPhase` once) and its demand is 3, so the claim requires a warning
for phase 1 — but the analyzer counts the duplicated occurrence twice
(supply 4) and emits no warning at all. -/
theorem c7_per_provider_supply_counterexample :
    validateCrossReferences [] [demoWorkerDupSlot] [demoTaskPhase1] = [] ∧
    (([demoWorkerDupSlot].filter (fun w => w.AvailableSlots.contains 1)).map
      (·.MaxLoadPerPhase)).sum = 2 ∧
    (([demoTaskPhase1].filter (fun t => t.PreferredPhases.contains 1)).map
      (·.Duration)).sum = 3 ∧
    (2 : Int) < 3 ∧
    specSupply [demoWorkerDupSlot] 1 = 4 := by
  decide

/-- C7 (amended): the analyzer's supply and demand are occurrence-weighted
(each occurrence of a phase in `AvailableSlots` adds that provider's
`MaxLoadPerPhase`; each occurrence in `PreferredPhases` adds that work unit's
`Duration`), and the output is exactly one non-autoFixable warning keyed
`"phase-{n}"` for each phase n occurring in some work unit's preferred
phases (in first-occurrence order) whose occurrence-weighted demand exceeds
its occurrence-weighted supply; the spec's concrete example (supply 2 from
`[1]`/load 2, demand 3 from `[1]`/duration 3) yields exactly the one warning
for phase 1. -/
theorem c7_saturation_amended :
    (∀ (clients : List ParsedClient) (workers : List ParsedWorker) (tasks : List ParsedTask),
      validateCrossReferences clients workers tasks =
        (dedupFirst (tasks.flatMap (·.PreferredPhases))).filterMap (fun n =>
          if specSupply workers n < specDemand tasks n then
            some (mkSaturationWarning n (specDemand tasks n) (specSupply workers n))
          else none)) ∧
    validateCrossReferences [] [demoWorkerPhase1] [demoTaskPhase1] =
      [mkSaturationWarning 1 3 2] := by
  constructor
  · intro clients workers tasks
    unfold validateCrossReferences
    rw [phaseDemandMap_eq, buildMap_eq, List.filterMap_map, demandPairs_fst]
    congr 1
    funext n
    show (if weightOf (demandPairs tasks) n
            > (lookupAssoc (phaseSlotMap workers) n).getD 0 then
          some (mkSaturationWarning n (weightOf (demandPairs tasks) n)
            ((lookupAssoc (phaseSlotMap workers) n).getD 0))
        else none)
      = if specSupply workers n < specDemand tasks n then
          some (mkSaturationWarning n (specDemand tasks n) (specSupply workers n))
        else none
    rw [phaseSlotMap_eq, lookup_buildMap_getD, weight_supplyPairs, weight_demandPairs]
  · decide

/-- C8 witness: the gate theorem applied at the concrete warnings-only
state. -/
theorem c8_export_gate_witness : (exportData demoWarningState).isSome :=
  (c8_export_gate.1 demoWarningState).mpr (by decide)

end DataAlchemist
